import Mathlib

/-!
# ZeroCore audio file decoder

A shallow embedding of `ZeroLibraries/AudioEngine/FileDecoder.cpp`: the constructor and
destructor, `AddDecodingTask`, `DecodePacket`, `QueueDecodedPackets`,
`FinishDecodingPacket` and the stream control (`OpenStream`, `ResetStream`, `CloseStream`)
of `Audio::FileDecoder`, as pure functions on an explicit decoder state; and of
`CustomAudioNode::SendPartialBuffer` of `Systems/Sound/SoundFilterNode.cpp`.

Conventions.
* Bytes and float samples are natural numbers / integers (a sample is carried around
  unchanged, so only its identity matters).
* `unsigned` values are natural numbers reduced modulo `2 ^ 32` at every addition,
  multiplication and conversion.
* Declarations that live in headers outside the sources (`FileHeader`, `PacketHeader`,
  `MaxChannels`, `FileEncoder::FrameSize`, `FileEncoder::MaxPacketSize`, the width of
  `size_t`) are fields of `Layout`.
* The codec library and the file layer are parameters (`Codec`, `FileSystem`).
* Ghost field `Log` records allocations, reads, codec calls and assertion failures, so
  that statements about "what the call touched" can be read off the final state.
-/

namespace Audio

/-- Number of values of the 32-bit `unsigned` type. -/
def U32 : Nat := 4294967296

/-- Conversion of a signed integer to `unsigned`: reduction modulo `2 ^ 32`. -/
def toUnsigned (x : Int) : Nat := (x % 4294967296).toNat

/-- Sum of two `unsigned` values. -/
def addU32 (a b : Nat) : Nat := (a + b) % U32

/-- Product of two `unsigned` values. -/
def mulU32 (a b : Nat) : Nat := (a * b) % U32

/-- A float sample, identified by its bit pattern. -/
abbrev Sample := Int

/-- State of one `OpusDecoder`, opaque to the decoder class. -/
abbrev OpusDecoder := Nat

/-- The fields of `FileHeader` that the decoder looks at. -/
structure FileHeader where
  Name0 : Nat
  Name1 : Nat
  SamplesPerChannel : Nat
  Channels : Int
deriving Repr, DecidableEq

/-- The fields of `PacketHeader` that the decoder looks at. -/
structure PacketHeader where
  Name0 : Nat
  Name1 : Nat
  Size : Nat
deriving Repr, DecidableEq

/-- Declarations the decoder uses from headers that are not part of the sources. -/
structure Layout where
  /-- Value of `sizeof(FileHeader)`. -/
  sizeofFileHeader : Nat
  /-- Value of `sizeof(PacketHeader)`. -/
  sizeofPacketHeader : Nat
  /-- Capacity of the `Decoders` and `DecodedPackets` arrays. -/
  MaxChannels : Nat
  /-- Value of `FileEncoder::FrameSize`, second dimension of `DecodedPackets`. -/
  FrameSize : Nat
  /-- Value of `FileEncoder::MaxPacketSize`. -/
  MaxPacketSize : Nat
  /-- Width in bits of `size_t`, the type of a `sizeof` expression. -/
  sizeTBits : Nat
  /-- Result of `memcpy(&header, bytes, sizeof(header))` followed by field access. -/
  readFileHeader : List Nat → FileHeader
  /-- Result of `memcpy(&packHead, bytes, sizeof(packHead))` followed by field access. -/
  readPacketHeader : List Nat → PacketHeader

/-- Little-endian value of a list of bytes. -/
def leValue : List Nat → Nat
  | [] => 0
  | b :: bs => b + 256 * leValue bs

/-- Modelled from the spec: the declarations of `FileHeader` and `PacketHeader` are not in the
sources; this layout follows the byte table of the spec (2-byte magic, unsigned 32-bit
samplesPerChannel, unsigned 16-bit channelCount; 2-byte magic, unsigned 32-bit payloadSize)
with natural alignment and little-endian fields. The constants are example values: eight
channels, 960-sample frames, 4000-byte packets, and the 64-bit `size_t` of an LP64 or
LLP64 build. It is used for concrete inputs only; the general theorems hold for every
`Layout`. -/
def specLayout : Layout where
  sizeofFileHeader := 12
  sizeofPacketHeader := 8
  MaxChannels := 8
  FrameSize := 960
  MaxPacketSize := 4000
  sizeTBits := 64
  readFileHeader := fun bs =>
    { Name0 := bs.getD 0 0, Name1 := bs.getD 1 0,
      SamplesPerChannel := leValue ((bs.drop 4).take 4),
      Channels := Int.ofNat (leValue ((bs.drop 8).take 2)) }
  readPacketHeader := fun bs =>
    { Name0 := bs.getD 0 0, Name1 := bs.getD 1 0, Size := leValue ((bs.drop 4).take 4) }

/-- Failure messages written into a `Zero::Status`. -/
inductive Message where
  /-- Message "Unable to open audio file". -/
  | UnableToOpen
  /-- Message "Unable to read from audio file". -/
  | UnableToRead
  /-- Message "Audio file is an incorrect format". -/
  | IncorrectFormat
  /-- Message "Error creating audio decoder", with the codec's error code. -/
  | ErrorCreatingDecoder (error : Int)
  /-- A failure reported by the file layer itself. -/
  | FileLayer
deriving Repr, DecidableEq

/-- A `Zero::Status`: `none` while not failed, `some m` once failed with message `m`. -/
abbrev Status := Option Message

/-- Method `Status::SetFailed`. -/
def Status.SetFailed (_ : Status) (m : Message) : Status := some m

/-- Method `Status::Failed`. -/
def Status.Failed (s : Status) : Bool := s.isSome

/-- One `DecodedPacket`: the frame count and the interleaved sample buffer. -/
structure DecodedPacket where
  FrameCount : Nat
  Samples : List Sample
deriving Repr, DecidableEq

/-- Ghost events recorded in `FileDecoder.Log`. -/
inductive Event where
  /-- Allocation `new byte[n]` of the input buffer. -/
  | alloc (n : Nat)
  /-- Release `delete[] InputFileData`. -/
  | free
  /-- Write `Decoders[i] = opus_decoder_create(...)`. -/
  | create (i : Nat)
  /-- Call `opus_decoder_destroy(Decoders[i])`. -/
  | destroy (i : Nat)
  /-- Access to `len` bytes of `InputFileData` starting at offset `off`. -/
  | readBuffer (off len : Nat)
  /-- Call `Read` asking the file for `len` bytes. -/
  | readFile (len : Nat)
  /-- An `ErrorIf` whose condition was true. -/
  | assertion
  /-- Dispatch of one `DecodePacket` task to the audio system; `count` is the value of
  `DecodingTaskCount` at the moment of the dispatch. -/
  | task (count : Int)
  /-- Statement `delete this`. -/
  | deleteThis
  /-- A `DecodedPacketQueue.Read` that returned the given block. -/
  | pop (packet : DecodedPacket)
  /-- Statement `delete[] Samples` of `DecodedPacket::ReleaseSamples` on the given block. -/
  | releaseSamples (packet : DecodedPacket)
  /-- An exception leaves `QueueDecodedPackets` and, nothing catching it, `DecodePacket`. -/
  | exception
deriving Repr, DecidableEq

/-- A `Zero::File`: open flag, read position and the bytes of the file. -/
structure File where
  IsOpen : Bool
  Position : Nat
  Data : List Nat
deriving Repr, DecidableEq

/-- The bytes `[off, off + len)` of `data`; positions past the end of `data` hold no defined
value and read as `0`. -/
def bytesAt (data : List Nat) (off len : Nat) : List Nat :=
  (List.range len).map (fun k => data.getD (off + k) 0)

/-- Method `File::Read` for `len` bytes: the bytes delivered and the file afterwards. -/
def File.Read (f : File) (len : Nat) : List Nat × File :=
  (bytesAt f.Data f.Position len, { f with Position := f.Position + len })

/-- What the file layer answers to the constructor's local `inputFile`. -/
structure FileSystem where
  /-- Value of `inputFile.IsOpen()` after `Open`. -/
  IsOpen : Bool
  /-- Value of `inputFile.CurrentFileSize()`, a `long long`. -/
  CurrentFileSize : Int
  /-- Bytes of the file. -/
  Data : List Nat
  /-- Whether `inputFile.Read` sets the status to failed. -/
  ReadFails : Bool

/-- The codec library. -/
structure Codec where
  /-- Result of `opus_decoder_create`: the returned pointer (`none` for null) and the error
  code; the argument counts the creations made before on this object. -/
  create : Nat → Option OpusDecoder × Int
  /-- Result of `opus_decode_float(decoder, data, len, pcm, FrameSize, 0)`: the decoder
  afterwards, the return value, and the samples written to the front of `pcm`. -/
  decode : Option OpusDecoder → List Nat → Option OpusDecoder × Int × List Sample
  /-- Value held by the uninitialised local `frames` of `DecodePacket`. -/
  junkFrames : Int

/-- The members of `Audio::FileDecoder`, with the ghost fields `Creations` and `Log`. -/
structure FileDecoder where
  Streaming : Bool
  DecodingTaskCount : Int
  ParentAlive : Bool
  InputFileData : Option (List Nat)
  DataIndex : Nat
  DataSize : Nat
  SamplesPerChannel : Nat
  Channels : Int
  Decoders : Nat → Option OpusDecoder
  DecodedPackets : Nat → Nat → Sample
  DecodedPacketQueue : List DecodedPacket
  InputFile : File
  /-- Ghost: number of `opus_decoder_create` calls made so far. -/
  Creations : Nat
  /-- Ghost: trace of the events of this object, oldest first. -/
  Log : List Event

/-- The comparison `size < sizeof(FileHeader)` between a `long long` and a `size_t`. Under the
usual arithmetic conversions the signed operand is converted to the unsigned type when
`size_t` is at least 64 bits wide; with a narrower `size_t` the comparison is made in
`long long`. -/
def sizeBelowHeader (L : Layout) (size : Int) : Bool :=
  if 64 ≤ L.sizeTBits then
    decide ((size % (2 ^ L.sizeTBits : Nat)).toNat < L.sizeofFileHeader)
  else
    decide (size < (L.sizeofFileHeader : Int))

/-- Assignment `a[i] = v` on an array seen as a function of the index. -/
def setAt {α : Type} (a : Nat → α) (i : Nat) (v : α) : Nat → α :=
  fun j => if j = i then v else a j

/-- The loop `for (short i = 0; i < Channels; ++i)` of the constructor, run over the
remaining indices; it returns early on the first creation error. -/
def createDecoders (codec : Codec) : List Nat → Status → FileDecoder → Status × FileDecoder
  | [], status, d => (status, d)
  | i :: rest, status, d =>
    let r := codec.create d.Creations
    let d1 := { d with Decoders := setAt d.Decoders i r.1, Creations := d.Creations + 1,
                       Log := d.Log ++ [Event.create i] }
    if r.2 < 0 then
      (Status.SetFailed status (Message.ErrorCreatingDecoder r.2),
        { d1 with InputFileData := none, Log := d1.Log ++ [Event.free] })
    else
      createDecoders codec rest status d1

/-- The indices visited by `for (short i = 0; i < Channels; ++i)`. -/
def channelRange (Channels : Int) : List Nat := List.range Channels.toNat

/-- Number of bytes the constructor asks `inputFile.Read` for: the whole file when not
streaming, the file header otherwise. -/
def FileDecoder.ctorAsked (L : Layout) (fs : FileSystem) (streaming : Bool) : Nat :=
  if streaming then L.sizeofFileHeader else toUnsigned fs.CurrentFileSize

/-- Size of the buffer the constructor allocates. -/
def FileDecoder.ctorCapacity (L : Layout) (fs : FileSystem) (streaming : Bool) : Nat :=
  if streaming then L.MaxPacketSize else toUnsigned fs.CurrentFileSize

/-- The local `header` of the constructor: the file header copied out of the input buffer. -/
def FileDecoder.ctorHeader (L : Layout) (fs : FileSystem) (streaming : Bool) : FileHeader :=
  L.readFileHeader
    (bytesAt (fs.Data.take (FileDecoder.ctorAsked L fs streaming)) 0 L.sizeofFileHeader)

/-- Constructor `FileDecoder::FileDecoder(status, fileName, streaming, asset)`. The argument
`mem` is the storage the object is built in: members without an initialiser keep what
`mem` holds. -/
def FileDecoder.ctor (L : Layout) (fs : FileSystem) (codec : Codec) (status : Status)
    (streaming : Bool) (mem : FileDecoder) : Status × FileDecoder :=
  let d0 : FileDecoder :=
    { mem with Streaming := streaming, DecodingTaskCount := 0, ParentAlive := true,
               InputFileData := none, DataIndex := 0, DecodedPacketQueue := [],
               InputFile := { IsOpen := false, Position := 0, Data := fs.Data },
               Creations := 0, Log := [] }
  if !fs.IsOpen then
    (Status.SetFailed status Message.UnableToOpen, d0)
  else if sizeBelowHeader L fs.CurrentFileSize then
    (Status.SetFailed status Message.UnableToRead, d0)
  else
    let d1 := { d0 with DataSize := toUnsigned fs.CurrentFileSize }
    let asked := FileDecoder.ctorAsked L fs streaming
    let d2 := { d1 with InputFileData := some (fs.Data.take asked),
                        Log := d1.Log ++ [Event.alloc (FileDecoder.ctorCapacity L fs streaming),
                                          Event.readFile asked] }
    let status1 : Status := if fs.ReadFails then some Message.FileLayer else status
    if Status.Failed status1 then
      (status1, { d2 with InputFileData := none, Log := d2.Log ++ [Event.free] })
    else
      let header := FileDecoder.ctorHeader L fs streaming
      let d3 := { d2 with DataIndex := addU32 d2.DataIndex L.sizeofFileHeader,
                          Log := d2.Log ++ [Event.readBuffer 0 L.sizeofFileHeader] }
      if header.Name0 ≠ 90 ∨ header.Name1 ≠ 69 then
        (Status.SetFailed status1 Message.IncorrectFormat,
          { d3 with InputFileData := none, Log := d3.Log ++ [Event.free] })
      else
        let d4 := { d3 with SamplesPerChannel := header.SamplesPerChannel,
                            Channels := header.Channels }
        createDecoders codec (channelRange d4.Channels) status1 d4

/-- Reduction of an integer to the range of a signed 32-bit value. -/
def toSigned32 (x : Int) : Int := (x + 2147483648) % 4294967296 - 2147483648

/-- Destructor `FileDecoder::~FileDecoder`: destroys the non-null decoders of the channels
`0..Channels-1` and deletes the input buffer if there is one. -/
def FileDecoder.dtor (d : FileDecoder) : FileDecoder :=
  let destroyed := ((channelRange d.Channels).filter (fun i => (d.Decoders i).isSome)).map
    Event.destroy
  let freed := if d.InputFileData.isSome then [Event.free] else []
  { d with Log := d.Log ++ destroyed ++ freed }

/-- Member `FileDecoder::FinishDecodingPacket`: decrements the task counter, then deletes the
object when `ParentAlive` is null. -/
def FileDecoder.FinishDecodingPacket (d : FileDecoder) : FileDecoder :=
  let d1 := { d with DecodingTaskCount := toSigned32 (d.DecodingTaskCount - 1) }
  if d1.ParentAlive = false then
    FileDecoder.dtor { d1 with Log := d1.Log ++ [Event.deleteThis] }
  else
    d1

/-- Inner loop of `QueueDecodedPackets` for one frame: `Samples[index] =
DecodedPackets[channel][frame]` for each channel, `index` counting on. A write past the
end of the allocation changes nothing in the model. -/
def interleaveFrame (DecodedPackets : Nat → Nat → Sample) (Channels : Int)
    (st : List Sample × Nat) (frame : Nat) : List Sample × Nat :=
  (channelRange Channels).foldl
    (fun acc channel => (acc.1.set acc.2 (DecodedPackets channel frame), addU32 acc.2 1)) st

/-- The block that the two loops of `QueueDecodedPackets` fill for a frame count `FrameCount`
(already an `unsigned` value): the buffer has `FrameCount * Channels` samples (an
`unsigned` product) and is filled frame by frame. The `ErrorIf` on the range of a sample
does not change the state and is left out. -/
def filledPacket (DecodedPackets : Nat → Nat → Sample) (Channels : Int) (FrameCount : Nat) :
    DecodedPacket :=
  let Samples := List.replicate (mulU32 FrameCount (toUnsigned Channels)) (0 : Sample)
  { FrameCount := FrameCount,
    Samples := ((List.range FrameCount).foldl (interleaveFrame DecodedPackets Channels)
      (Samples, 0)).1 }

/-- The `DecodedPacket` built by `QueueDecodedPackets(numberOfFrames)`, if the call builds one.
The frame count is the argument converted to `unsigned`. A negative argument converts to
`2 ^ 32 + numberOfFrames`, a count of at least `2 ^ 31` frames. With at least one channel
the call then builds no block: `new float[FrameCount * Channels]` throws, or the copy loop
leaves the allocation and the `FrameSize` samples of the rows of `DecodedPackets` far
behind; the result is `none`. Without a channel the inner loop has no iteration, nothing
is read or written, and the call builds a block of that frame count. -/
def newPacket (DecodedPackets : Nat → Nat → Sample) (Channels : Int) (numberOfFrames : Int) :
    Option DecodedPacket :=
  if numberOfFrames < 0 ∧ 0 < Channels then none
  else some (filledPacket DecodedPackets Channels (toUnsigned numberOfFrames))

/-- Member `FileDecoder::QueueDecodedPackets`: builds the packet and writes it to the queue;
`none` when the call does not return. -/
def FileDecoder.QueueDecodedPackets (d : FileDecoder) (numberOfFrames : Int) :
    Option FileDecoder :=
  match newPacket d.DecodedPackets d.Channels numberOfFrames with
  | none => none
  | some packet => some { d with DecodedPacketQueue := d.DecodedPacketQueue ++ [packet] }

/-- Effect of the codec writing `pcm` to the front of the row `DecodedPackets[i]`, which has
room for `FrameSize` samples. -/
def writePcm (L : Layout) (DecodedPackets : Nat → Nat → Sample) (i : Nat) (pcm : List Sample) :
    Nat → Nat → Sample :=
  fun c f => if c = i ∧ f < pcm.length ∧ f < L.FrameSize then pcm.getD f 0
    else DecodedPackets c f

/-- The packet header that the loop body of `DecodePacket` reads for the next channel: copied
from the buffer at `DataIndex` when not streaming, read from the file otherwise. -/
def FileDecoder.packHead (L : Layout) (d : FileDecoder) : PacketHeader :=
  if d.Streaming then L.readPacketHeader (d.InputFile.Read L.sizeofPacketHeader).1
  else L.readPacketHeader (bytesAt (d.InputFileData.getD []) d.DataIndex L.sizeofPacketHeader)

/-- Whether the loop body of `DecodePacket` treats a header as "not a valid packet". -/
def PacketHeader.invalid (h : PacketHeader) : Bool :=
  h.Size % U32 == 0 || (h.Name0 != 112 || h.Name1 != 97)

/-- Body of the loop `for (short i = 0; i < Channels; ++i)` of `DecodePacket`, on the object
and the local `frames`. -/
def FileDecoder.decodeChannel (L : Layout) (codec : Codec) (st : FileDecoder × Int) (i : Nat) :
    FileDecoder × Int :=
  let d := st.1
  let packHead := FileDecoder.packHead L d
  let Size := packHead.Size % U32
  -- read in the packet header
  let d1 : FileDecoder :=
    if d.Streaming then
      { d with InputFile := (d.InputFile.Read L.sizeofPacketHeader).2,
               Log := d.Log ++ [Event.readFile L.sizeofPacketHeader] }
    else
      { d with Log := d.Log ++ [Event.readBuffer d.DataIndex L.sizeofPacketHeader] }
  -- move the data index forward
  let d2 := { d1 with DataIndex := addU32 d1.DataIndex L.sizeofPacketHeader }
  -- ErrorIf(DataIndex + packHead.Size > DataSize)
  let d3 := if addU32 d2.DataIndex Size > d2.DataSize
    then { d2 with Log := d2.Log ++ [Event.assertion] } else d2
  let r : FileDecoder × Int :=
    if packHead.invalid then
      (d3, 0)
    else if d3.Streaming then
      let rd := d3.InputFile.Read Size
      let out := codec.decode (d3.Decoders i) rd.1
      ({ d3 with InputFile := rd.2,
                 InputFileData := some (rd.1 ++ (d3.InputFileData.getD []).drop Size),
                 Decoders := setAt d3.Decoders i out.1,
                 DecodedPackets := writePcm L d3.DecodedPackets i out.2.2,
                 Log := d3.Log ++ [Event.readFile Size, Event.readBuffer 0 Size] }, out.2.1)
    else
      let out := codec.decode (d3.Decoders i)
        (bytesAt (d3.InputFileData.getD []) d3.DataIndex Size)
      ({ d3 with Decoders := setAt d3.Decoders i out.1,
                 DecodedPackets := writePcm L d3.DecodedPackets i out.2.2,
                 Log := d3.Log ++ [Event.readBuffer d3.DataIndex Size] }, out.2.1)
  -- move the data index forward
  ({ r.1 with DataIndex := addU32 r.1.DataIndex Size }, r.2)

/-- The guard of `DecodePacket`: no buffer, cursor at or past the end, or a closed stream. -/
def FileDecoder.noData (d : FileDecoder) : Bool :=
  d.InputFileData.isNone || decide (d.DataSize ≤ d.DataIndex) ||
    (d.Streaming && !d.InputFile.IsOpen)

/-- The loop of `DecodePacket` over all channels, starting from the uninitialised `frames`. -/
def FileDecoder.decodeChannels (L : Layout) (codec : Codec) (d : FileDecoder) :
    FileDecoder × Int :=
  (channelRange d.Channels).foldl (FileDecoder.decodeChannel L codec) (d, codec.junkFrames)

/-- Member `FileDecoder::DecodePacket`: the object as the call leaves it. When
`QueueDecodedPackets` does not return, the exception leaves `DecodePacket` too: the
statements after the call are not executed, and the log ends with `Event.exception`. -/
def FileDecoder.DecodePacket (L : Layout) (codec : Codec) (d : FileDecoder) : FileDecoder :=
  if d.noData then
    d.FinishDecodingPacket
  else
    let r := FileDecoder.decodeChannels L codec d
    match r.1.QueueDecodedPackets r.2 with
    | none => { r.1 with Log := r.1.Log ++ [Event.exception] }
    | some d1 =>
      let d2 := if decide (d1.DataSize ≤ d1.DataIndex) && !d1.Streaming
        then { d1 with InputFileData := none, Log := d1.Log ++ [Event.free] } else d1
      d2.FinishDecodingPacket

/-! ## Concrete inputs -/

/-- Storage with every member zeroed. -/
def zeroMem : FileDecoder where
  Streaming := false
  DecodingTaskCount := 0
  ParentAlive := false
  InputFileData := none
  DataIndex := 0
  DataSize := 0
  SamplesPerChannel := 0
  Channels := 0
  Decoders := fun _ => none
  DecodedPackets := fun _ _ => 0
  DecodedPacketQueue := []
  InputFile := { IsOpen := false, Position := 0, Data := [] }
  Creations := 0
  Log := []

/-- A codec whose creations succeed and whose decoder counts the packets it was given: a
packet of `n` bytes decodes to `n` frames whose samples are its bytes. -/
def countingCodec : Codec where
  create := fun _ => (some 0, 0)
  decode := fun st bytes => (st.map (fun k => k + 1), (bytes.length : Int), bytes.map Int.ofNat)
  junkFrames := 0

/-- A codec whose every decode call reports `OPUS_INVALID_PACKET` (-4). -/
def failingCodec : Codec where
  create := fun _ => (some 0, 0)
  decode := fun st _ => (st, -4, [])
  junkFrames := 0

/-- A file system holding an open, readable file with the given bytes. -/
def fileOf (bytes : List Nat) : FileSystem where
  IsOpen := true
  CurrentFileSize := bytes.length
  Data := bytes
  ReadFails := false

/-- File header bytes in `specLayout` with magic `'Z','E'` and the given channel count. -/
def zeHeader (channels : Nat) : List Nat := [90, 69, 0, 0, 0, 0, 0, 0, channels, 0, 0, 0]

/-- Packet header bytes in `specLayout` with the given two magic bytes and a payload size
below 256. -/
def paHeader (m0 m1 size : Nat) : List Nat := [m0, m1, 0, 0, size, 0, 0, 0]

/-- The decoder a successful buffered construction leaves for a file with the given bytes, in
`specLayout`. -/
def bufferedDecoder (codec : Codec) (bytes : List Nat) : FileDecoder :=
  (FileDecoder.ctor specLayout (fileOf bytes) codec none false zeroMem).2

/-- A mono file with one well-formed one-byte packet. -/
def monoFile : List Nat := zeHeader 1 ++ paHeader 112 97 1 ++ [7]

/-- A two-channel file with one packet set; the packet of channel 0 has the magic `'x','x'`,
the packet of channel 1 is well formed. -/
def badFirstChannelFile : List Nat :=
  zeHeader 2 ++ paHeader 120 120 1 ++ [7] ++ paHeader 112 97 1 ++ [9]

/-- A mono file whose only packet header has the magic `'x','x'` and declares a payload of
`0xFFFFFFFF` bytes. -/
def hugeSizeFile : List Nat := zeHeader 1 ++ [120, 120, 0, 0, 255, 255, 255, 255]

/-- A mono file whose only packet header is well formed and declares 200 payload bytes, none
of which are in the file. -/
def overrunFile : List Nat := zeHeader 1 ++ paHeader 112 97 200

/-! ## Valid buffered files -/

/-- One packet of the container: the bytes of its header and its payload. -/
structure Packet where
  head : List Nat
  payload : List Nat
deriving Repr, DecidableEq

/-- A packet with a well-formed header: the header has the size of `PacketHeader`, carries the
magic `'p','a'` and declares the length of the payload, which is not empty. -/
def Packet.WellFormed (L : Layout) (p : Packet) : Prop :=
  p.head.length = L.sizeofPacketHeader ∧
  (L.readPacketHeader p.head).Name0 = 112 ∧
  (L.readPacketHeader p.head).Name1 = 97 ∧
  (L.readPacketHeader p.head).Size = p.payload.length ∧
  0 < p.payload.length

/-- The bytes of consecutive packets: header, payload, header, payload, ... -/
def packetsBytes : List Packet → List Nat
  | [] => []
  | p :: ps => p.head ++ (p.payload ++ packetsBytes ps)

/-- The bytes of consecutive packet sets. -/
def setsBytes : List (List Packet) → List Nat
  | [] => []
  | s :: ss => packetsBytes s ++ setsBytes ss

/-- A valid file for `C` channels: a file header followed by complete sets of `C` packets,
each with a well-formed header, the whole fitting the `unsigned` data size. -/
structure ValidFile (L : Layout) (C : Nat) (header : List Nat) (sets : List (List Packet)) :
    Prop where
  headerSize : header.length = L.sizeofFileHeader
  complete : ∀ s ∈ sets, s.length = C
  wellFormed : ∀ s ∈ sets, ∀ p ∈ s, p.WellFormed L
  fits : (header ++ setsBytes sets).length < U32

/-- The decoder state right after a successful buffered construction on the file
`header ++ setsBytes sets`: whole file in the buffer, cursor just past the file header. -/
structure FileDecoder.Buffers (d : FileDecoder) (L : Layout) (C : Nat) (header : List Nat)
    (sets : List (List Packet)) : Prop where
  streaming : d.Streaming = false
  data : d.InputFileData = some (header ++ setsBytes sets)
  size : d.DataSize = (header ++ setsBytes sets).length
  index : d.DataIndex = L.sizeofFileHeader
  channels : d.Channels = (C : Int)

/-- The per-channel codec state of a decoder: the `Decoders` and the `DecodedPackets` rows. -/
structure ChannelBank where
  Decoders : Nat → Option OpusDecoder
  DecodedPackets : Nat → Nat → Sample

/-- The channel bank of a decoder. -/
def FileDecoder.bank (d : FileDecoder) : ChannelBank :=
  { Decoders := d.Decoders, DecodedPackets := d.DecodedPackets }

/-- File-order reading of the container, one packet: channel `ip.1` decodes the payload of
packet `ip.2` with its own decoder into its own row; the frame result is remembered. -/
def playPacket (L : Layout) (codec : Codec) (st : ChannelBank × Int) (ip : Nat × Packet) :
    ChannelBank × Int :=
  let out := codec.decode (st.1.Decoders ip.1) ip.2.payload
  ({ Decoders := setAt st.1.Decoders ip.1 out.1,
     DecodedPackets := writePcm L st.1.DecodedPackets ip.1 out.2.2 }, out.2.1)

/-- File-order reading of the container, one packet set: channel `i` receives the `i`-th
packet of the set, then the rows are interleaved into one block, if a block is built. -/
def playSet (L : Layout) (codec : Codec) (bank : ChannelBank) (set : List Packet) :
    ChannelBank × Option DecodedPacket :=
  let r := ((List.range set.length).zip set).foldl (playPacket L codec) (bank, codec.junkFrames)
  (r.1, newPacket r.1.DecodedPackets (set.length : Int) r.2)

/-- The buffer accesses of reading consecutive packets that start at offset `off`: for each
packet its header, then its payload. -/
def packetReads (L : Layout) : Nat → List Packet → List Event
  | _, [] => []
  | off, p :: ps =>
    Event.readBuffer off L.sizeofPacketHeader ::
      Event.readBuffer (off + L.sizeofPacketHeader) p.payload.length ::
        packetReads L (off + L.sizeofPacketHeader + p.payload.length) ps

/-- A decoder with its cursor, channel bank and log replaced. -/
def FileDecoder.advance (d : FileDecoder) (index : Nat) (bank : ChannelBank) (log : List Event) :
    FileDecoder :=
  { d with DataIndex := index, Decoders := bank.Decoders, DecodedPackets := bank.DecodedPackets,
           Log := log }

/-- Two packet sets for two channels, with payloads of one and two bytes. -/
def twoSets : List (List Packet) :=
  [[{ head := paHeader 112 97 1, payload := [7] }, { head := paHeader 112 97 2, payload := [8, 9] }],
   [{ head := paHeader 112 97 1, payload := [5] }, { head := paHeader 112 97 1, payload := [6] }]]

/-- A buffered decoder somewhere inside a valid file `buf` for `C` channels: the bytes from
the cursor on are the packet sets `rest`, and the buffer is still held while bytes remain. -/
structure FileDecoder.At (d : FileDecoder) (L : Layout) (C : Nat) (buf : List Nat)
    (rest : List (List Packet)) : Prop where
  streaming : d.Streaming = false
  channels : d.Channels = (C : Int)
  size : d.DataSize = buf.length
  fits : buf.length < U32
  buffer : d.InputFileData = some buf ∨ (d.InputFileData = none ∧ setsBytes rest = [])
  position : buf.drop d.DataIndex = setsBytes rest
  within : d.DataIndex ≤ buf.length
  complete : ∀ s ∈ rest, s.length = C
  wellFormed : ∀ s ∈ rest, ∀ p ∈ s, p.WellFormed L

instance (L : Layout) (p : Packet) : Decidable (p.WellFormed L) := by
  unfold Packet.WellFormed
  infer_instance

/-- The decoder after `n` consecutive calls of `DecodePacket`. -/
def FileDecoder.decodeSteps (L : Layout) (codec : Codec) : Nat → FileDecoder → FileDecoder
  | 0, d => d
  | n + 1, d => FileDecoder.decodeSteps L codec n (FileDecoder.DecodePacket L codec d)

/-! ## Task counting, lifetime and stream control -/

/-- Number of `new byte[]` allocations in a log. -/
def allocations (log : List Event) : Nat :=
  log.countP (fun e => match e with
    | Event.alloc _ => true
    | _ => false)

/-- Number of `delete[] InputFileData` in a log. -/
def releases (log : List Event) : Nat := log.count Event.free

/-- Number of `opus_decoder_destroy` calls in a log. -/
def destructions (log : List Event) : Nat :=
  log.countP (fun e => match e with
    | Event.destroy _ => true
    | _ => false)

/-- Number of `delete this` statements in a log: how often the instance was freed by a task. -/
def deletions (log : List Event) : Nat := log.count Event.deleteThis

/-- Number of task dispatches in a log. -/
def dispatches (log : List Event) : Nat :=
  log.countP (fun e => match e with
    | Event.task _ => true
    | _ => false)

/-- Member `FileDecoder::AddDecodingTask`: `AtomicIncrement32(&DecodingTaskCount)`, then the
dispatch of one `DecodePacket` functor to the audio system. -/
def FileDecoder.AddDecodingTask (d : FileDecoder) : FileDecoder :=
  let d1 := { d with DecodingTaskCount := toSigned32 (d.DecodingTaskCount + 1) }
  { d1 with Log := d1.Log ++ [Event.task d1.DecodingTaskCount] }

/-- Member `FileDecoder::StreamIsOpen`. -/
def FileDecoder.StreamIsOpen (d : FileDecoder) : Bool := d.InputFile.IsOpen

/-- The loop `for (short i = 0; i < Channels; ++i) Decoders[i] = opus_decoder_create(...)` of
`ResetStream`, run over the remaining indices; the error code is not looked at. -/
def recreateDecoders (codec : Codec) : List Nat → FileDecoder → FileDecoder
  | [], d => d
  | i :: rest, d =>
    recreateDecoders codec rest
      { d with Decoders := setAt d.Decoders i (codec.create d.Creations).1,
               Creations := d.Creations + 1,
               Log := d.Log ++ [Event.create i] }

/-- Member `FileDecoder::ResetStream`. Nothing happens on a closed file. Otherwise the counter
is read by a compare-exchange of 0 with 0 (which leaves it as it is, and whose result is
not acted on), the file is positioned at `sizeof(FileHeader)`, the cursor is set to the
same value, every `Decoders[i]` with `i < Channels` is destroyed and created anew, and one
decoding task is added. -/
def FileDecoder.ResetStream (L : Layout) (codec : Codec) (d : FileDecoder) : FileDecoder :=
  if !d.InputFile.IsOpen then
    d
  else
    let d1 := { d with InputFile := { d.InputFile with Position := L.sizeofFileHeader },
                       DataIndex := L.sizeofFileHeader % U32 }
    let d2 := { d1 with Log := d1.Log ++ (channelRange d1.Channels).map Event.destroy }
    (recreateDecoders codec (channelRange d2.Channels) d2).AddDecodingTask

/-- The loop `while (DecodedPacketQueue.Read(packet)) { }` of `CloseStream`: every block in the
queue is taken out and dropped. -/
def drainQueue : List DecodedPacket → FileDecoder → FileDecoder
  | [], d => { d with DecodedPacketQueue := [] }
  | packet :: rest, d => drainQueue rest { d with Log := d.Log ++ [Event.pop packet] }

/-- Member `FileDecoder::CloseStream`: closes the file if it is open, then drains the queue. -/
def FileDecoder.CloseStream (d : FileDecoder) : FileDecoder :=
  let d1 := if d.InputFile.IsOpen then { d with InputFile := { d.InputFile with IsOpen := false } }
    else d
  drainQueue d1.DecodedPacketQueue d1

/-- Member `FileDecoder::OpenStream`: opens the file named at construction, positioned at its
start, and resets the stream; `opens` tells whether the file layer could open it. -/
def FileDecoder.OpenStream (L : Layout) (codec : Codec) (opens : Bool) (d : FileDecoder) :
    FileDecoder :=
  FileDecoder.ResetStream L codec
    { d with InputFile := { d.InputFile with IsOpen := opens, Position := 0 } }

/-- The decoder a successful streamed construction leaves for a file with the given bytes, in
`specLayout`. -/
def streamedDecoder (codec : Codec) (bytes : List Nat) : FileDecoder :=
  (FileDecoder.ctor specLayout (fileOf bytes) codec none true zeroMem).2

/-- A codec whose second decoder creation fails with error -7 (`OPUS_ALLOC_FAIL`) and returns
null; every other creation succeeds. -/
def secondCreationFails : Codec where
  create := fun k => if k = 1 then (none, -7) else (some 0, 0)
  decode := fun st bytes => (st, (bytes.length : Int), bytes.map Int.ofNat)
  junkFrames := 0

/-- A mono file for streaming: the first packet header has the magic `'x','x'` and declares 8
payload bytes; the payload looks like a packet header declaring 2 bytes; then comes a
well-formed packet with a 1-byte payload. -/
def desyncFile : List Nat :=
  zeHeader 1 ++ paHeader 120 120 8 ++ paHeader 112 97 2 ++ paHeader 112 97 1 ++ [7]

/-- `AtomicCompareExchange32(&target, exchange, comparison)`: the target afterwards and the
returned original value. The exchange is stored only when the target equals the comparand. -/
def AtomicCompareExchange32 (target exchange comparison : Int) : Int × Int :=
  (if target = comparison then exchange else target, target)

/-- `AtomicCompareExchangePointer(&target, exchange, comparison)` for a pointer of which only
"null" (`false`) or "not null" (`true`) is known, with null as exchange or comparand: the
target afterwards and the returned original value. -/
def AtomicCompareExchangePointer (target exchange comparison : Bool) : Bool × Bool :=
  (if target = comparison then exchange else target, target)

/-- The expression `AtomicCompareExchangePointer(&ParentAlive, nullptr, nullptr)` of
`FinishDecodingPacket`: the object afterwards and the value returned. -/
def FileDecoder.guardCheck (d : FileDecoder) : FileDecoder × Bool :=
  let r := AtomicCompareExchangePointer d.ParentAlive false false
  ({ d with ParentAlive := r.1 }, r.2)

/-- The expression `AtomicCompareExchange32(&DecodingTaskCount, 0, 0)` of `ResetStream`: the
object afterwards and the value returned. -/
def FileDecoder.counterCheck (d : FileDecoder) : FileDecoder × Int :=
  let r := AtomicCompareExchange32 d.DecodingTaskCount 0 0
  ({ d with DecodingTaskCount := r.1 }, r.2)

/-- Member `DecodedPacket::ReleaseSamples`, on the block and the log: the sample buffer is
deleted and the pointer nulled (the model has no null buffer: the block keeps no samples). -/
def DecodedPacket.ReleaseSamples (p : DecodedPacket) (log : List Event) :
    DecodedPacket × List Event :=
  ({ p with Samples := [] }, log ++ [Event.releaseSamples p])

/-- The blocks taken out of the queue according to a log, oldest first. -/
def popped : List Event → List DecodedPacket
  | [] => []
  | Event.pop p :: rest => p :: popped rest
  | _ :: rest => popped rest

/-- The blocks whose sample buffer was released according to a log, oldest first. -/
def released : List Event → List DecodedPacket
  | [] => []
  | Event.releaseSamples p :: rest => p :: released rest
  | _ :: rest => released rest

/-! ## Further concrete inputs -/

/-- The streamed decoder of the mono file after `OpenStream`: the file is open and the one
task that `OpenStream` issued is outstanding. -/
def openedMono : FileDecoder :=
  FileDecoder.OpenStream specLayout countingCodec true (streamedDecoder countingCodec monoFile)

/-- The streamed decoder of the mono file after `OpenStream` and `CloseStream`, with the owner
gone since: the guard is RETIRED while the task issued by `OpenStream` is still to run. -/
def retiredClosedMono : FileDecoder :=
  { openedMono.CloseStream with ParentAlive := false }

/-- A mono file whose only packet header has the magic `'x','x'` and declares a payload of
`0xFFFFFFF7` bytes, that is `2 ^ 32 - 9`. -/
def backwardFile : List Nat := zeHeader 1 ++ [120, 120, 0, 0, 247, 255, 255, 255]

/-- An open, readable file of 5020 bytes for streaming: a `'Z','E'` header for one channel, a
packet header `'p','a'` that declares 5000 payload bytes, and 5000 payload bytes. -/
def oversizeFile : FileSystem where
  IsOpen := true
  CurrentFileSize := 5020
  Data := zeHeader 1 ++ [112, 97, 0, 0, 136, 19, 0, 0] ++ List.replicate 5000 1
  ReadFails := false

/-- A codec that reports `OPUS_INVALID_PACKET` (-4) for the one-byte packet `[9]` and decodes
every other packet of `n` bytes to `n` frames. -/
def lastFailsCodec : Codec where
  create := fun _ => (some 0, 0)
  decode := fun st bytes =>
    if bytes = [9] then (st, -4, []) else (st, (bytes.length : Int), bytes.map Int.ofNat)
  junkFrames := 0

/-- A two-channel file with one packet set of two well-formed one-byte packets, `[7]` for
channel 0 and `[9]` for channel 1. -/
def lastFailsFile : List Nat :=
  zeHeader 2 ++ paHeader 112 97 1 ++ [7] ++ paHeader 112 97 1 ++ [9]

/-- The one packet set of `lastFailsFile`. -/
def lastFailsSets : List (List Packet) :=
  [[{ head := paHeader 112 97 1, payload := [7] }, { head := paHeader 112 97 1, payload := [9] }]]

/-! ## Schedules of decoding tasks -/

/-- One step in the life of the decoding tasks of a decoder. -/
inductive TaskOp where
  /-- A call of `AddDecodingTask`. -/
  | dispatch
  /-- A dispatched task runs to completion: one invocation of `DecodePacket`. -/
  | complete
deriving Repr, DecidableEq

/-- The decoder after one step of a schedule. -/
def FileDecoder.perform (L : Layout) (codec : Codec) (d : FileDecoder) : TaskOp → FileDecoder
  | TaskOp.dispatch => d.AddDecodingTask
  | TaskOp.complete => FileDecoder.DecodePacket L codec d

/-- The decoder after the steps of a schedule, first step first. -/
def FileDecoder.performAll (L : Layout) (codec : Codec) (ops : List TaskOp) (d : FileDecoder) :
    FileDecoder :=
  ops.foldl (FileDecoder.perform L codec) d

/-- Number of tasks a schedule dispatches. -/
def dispatched (ops : List TaskOp) : Nat := ops.count TaskOp.dispatch

/-- Number of tasks a schedule completes. -/
def completed (ops : List TaskOp) : Nat := ops.count TaskOp.complete

/-- Whether the task system can produce a schedule when `pending` tasks are outstanding at its
start: a task completes only after it was dispatched, and the number of outstanding tasks
stays below `2 ^ 31`. -/
def schedulable : Nat → List TaskOp → Bool
  | _, [] => true
  | pending, TaskOp.dispatch :: rest =>
    decide (pending + 1 < 2147483648) && schedulable (pending + 1) rest
  | pending, TaskOp.complete :: rest => decide (0 < pending) && schedulable (pending - 1) rest

/-! ## `CustomAudioNode::SendPartialBuffer` of `Systems/Sound/SoundFilterNode.cpp` -/

/-- What a call of `SendPartialBuffer` ended in. -/
inductive SendResult where
  /-- The exception "Called SendPartialBuffer on CustomAudioNode with a null SoundBuffer". -/
  | nullBuffer
  /-- The exception "SendPartialBuffer parameters exceed size of the SoundBuffer". -/
  | exceedsSize
  /-- No exception, and no node to send to. -/
  | noNode
  /-- The call reached `SendToAudioEngine`, whose `memcpy` copied `count` floats starting at
  index `first` of the sound buffer. -/
  | sent (first : Int) (count : Nat)
deriving Repr, DecidableEq

/-- Member `CustomAudioNode::SendToAudioEngine(float* samples, unsigned howManySamples)`, the
pointer given as an index into the sound buffer: a new array of `howManySamples` floats
is filled by `memcpy` from `samples` on and handed to the node. -/
def CustomAudioNode.SendToAudioEngine (samples : Int) (howManySamples : Nat) : SendResult :=
  SendResult.sent samples howManySamples

/-- Member `CustomAudioNode::SendPartialBuffer(buffer, startAtIndex, howManySamples)`. The
buffer is `none` for a null pointer and the samples of `mBuffer` otherwise; `mNode` tells
whether the node pointer is non-null. The sum of the two `int`s is a 32-bit signed value,
`mBuffer.Size()` is cast to `int`, and `howManySamples` is converted to `unsigned` when it
is passed on. -/
def CustomAudioNode.SendPartialBuffer (buffer : Option (List Sample)) (mNode : Bool)
    (startAtIndex howManySamples : Int) : SendResult :=
  match buffer with
  | none => SendResult.nullBuffer
  | some mBuffer =>
    if startAtIndex < 0 ∨
        toSigned32 (startAtIndex + howManySamples) > toSigned32 (mBuffer.length : Int) then
      SendResult.exceedsSize
    else if mNode then
      CustomAudioNode.SendToAudioEngine startAtIndex (toUnsigned howManySamples)
    else
      SendResult.noNode

/-! ## Valid streamed files -/

/-- C1: a file whose header, as the constructor reads it, does not start with 'Z','E' makes the
constructor fail: the status is failed, `InputFileData` is null on return and no channel
decoder is created; when the call reaches the header check (file open, size accepted, read
succeeded, status not failed on entry) the message is "incorrect format" and the buffer
that was allocated has been released. -/
theorem ctor_bad_magic_fails (L : Layout) (fs : FileSystem) (codec : Codec) (status : Status)
    (streaming : Bool) (mem : FileDecoder)
    (hmagic : (FileDecoder.ctorHeader L fs streaming).Name0 ≠ 90 ∨
      (FileDecoder.ctorHeader L fs streaming).Name1 ≠ 69) :
    (FileDecoder.ctor L fs codec status streaming mem).1.Failed = true ∧
    (FileDecoder.ctor L fs codec status streaming mem).2.InputFileData = none ∧
    (∀ i, Event.create i ∉ (FileDecoder.ctor L fs codec status streaming mem).2.Log) ∧
    (FileDecoder.ctor L fs codec status streaming mem).2.Creations = 0 ∧
    (fs.IsOpen = true → sizeBelowHeader L fs.CurrentFileSize = false → fs.ReadFails = false →
      status = none →
      (FileDecoder.ctor L fs codec status streaming mem).1 = some Message.IncorrectFormat ∧
      (FileDecoder.ctor L fs codec status streaming mem).2.Log =
        [Event.alloc (FileDecoder.ctorCapacity L fs streaming),
         Event.readFile (FileDecoder.ctorAsked L fs streaming),
         Event.readBuffer 0 L.sizeofFileHeader, Event.free]) := by
  unfold FileDecoder.ctor
  by_cases h1 : fs.IsOpen = true
  · by_cases h2 : sizeBelowHeader L fs.CurrentFileSize = true
    · simp [h1, h2, Status.SetFailed, Status.Failed]
    · by_cases h3 : fs.ReadFails = true
      · simp [h1, h2, h3, Status.SetFailed, Status.Failed]
      · cases status with
        | none => simp [h1, h2, h3, hmagic, Status.SetFailed, Status.Failed]
        | some m => simp [h1, h2, h3, Status.SetFailed, Status.Failed]
  · simp [h1, Status.SetFailed, Status.Failed]



/-- Witness of C1 on a twelve-byte file starting with 'X','Y'. -/
theorem ctor_bad_magic_fails_witness :
    ((FileDecoder.ctorHeader specLayout (fileOf [88, 89, 0, 0, 0, 0, 0, 0, 1, 0, 0, 0]) false).Name0
        ≠ 90 ∨
      (FileDecoder.ctorHeader specLayout (fileOf [88, 89, 0, 0, 0, 0, 0, 0, 1, 0, 0, 0]) false).Name1
        ≠ 69) ∧
    (FileDecoder.ctor specLayout (fileOf [88, 89, 0, 0, 0, 0, 0, 0, 1, 0, 0, 0]) countingCodec none
      false zeroMem).1 = some Message.IncorrectFormat ∧
    (FileDecoder.ctor specLayout (fileOf [88, 89, 0, 0, 0, 0, 0, 0, 1, 0, 0, 0]) countingCodec none
      false zeroMem).2.InputFileData = none :=
  have h := ctor_bad_magic_fails specLayout (fileOf [88, 89, 0, 0, 0, 0, 0, 0, 1, 0, 0, 0])
    countingCodec none false zeroMem (by decide)
  ⟨by decide, (h.2.2.2.2 rfl rfl rfl rfl).1, h.2.1⟩

/-- Sizes from zero up to the header size are rejected before any allocation, whatever the
width of `size_t`. -/
theorem ctor_small_size_rejected (L : Layout) (fs : FileSystem) (codec : Codec)
    (streaming : Bool) (mem : FileDecoder) (hopen : fs.IsOpen = true)
    (h0 : 0 ≤ fs.CurrentFileSize) (hlt : fs.CurrentFileSize < (L.sizeofFileHeader : Int)) :
    (FileDecoder.ctor L fs codec none streaming mem).1 = some Message.UnableToRead ∧
    (FileDecoder.ctor L fs codec none streaming mem).2.Log = [] ∧
    (FileDecoder.ctor L fs codec none streaming mem).2.InputFileData = none := by
  have hb : sizeBelowHeader L fs.CurrentFileSize = true := by
    unfold sizeBelowHeader
    split
    · have hm : (0 : Int) < ((2 ^ L.sizeTBits : Nat) : Int) := by positivity
      have h1 : fs.CurrentFileSize % ((2 ^ L.sizeTBits : Nat) : Int) ≤ fs.CurrentFileSize := by
        by_cases hc : fs.CurrentFileSize < ((2 ^ L.sizeTBits : Nat) : Int)
        · rw [Int.emod_eq_of_lt h0 hc]
        · have := Int.emod_lt_of_pos fs.CurrentFileSize hm
          omega
      have h2 : 0 ≤ fs.CurrentFileSize % ((2 ^ L.sizeTBits : Nat) : Int) :=
        Int.emod_nonneg _ (ne_of_gt hm)
      simp only [decide_eq_true_eq]
      omega
    · simpa using hlt
  unfold FileDecoder.ctor
  simp [hopen, hb, Status.SetFailed]

/-- C2 (the code at the failing input): with a 64-bit `size_t`, a reported size of -1 is not
below `sizeof(FileHeader)` after conversion, so the constructor allocates a buffer of
`(unsigned)-1` bytes, reads, parses the header and fails with "incorrect format" instead
of "Unable to read from audio file". -/
theorem ctor_negative_size_allocates (codec : Codec) (mem : FileDecoder) :
    sizeBelowHeader specLayout (-1) = false ∧
    (FileDecoder.ctor specLayout
      { IsOpen := true, CurrentFileSize := -1, Data := [], ReadFails := false }
      codec none false mem).1 = some Message.IncorrectFormat ∧
    (FileDecoder.ctor specLayout
      { IsOpen := true, CurrentFileSize := -1, Data := [], ReadFails := false }
      codec none false mem).2.Log =
      [Event.alloc 4294967295, Event.readFile 4294967295, Event.readBuffer 0 12, Event.free] := by
  refine ⟨by decide, ?_, ?_⟩ <;>
  simp [FileDecoder.ctor, sizeBelowHeader, specLayout, Status.SetFailed, Status.Failed,
      FileDecoder.ctorHeader, FileDecoder.ctorAsked, FileDecoder.ctorCapacity, toUnsigned,
      bytesAt]



/-- When the creation loop leaves the status un-failed it visited every index: the status was
un-failed before, each index got one `create` event, and the other members are untouched. -/
theorem createDecoders_ok (codec : Codec) (is : List Nat) (status : Status) (d : FileDecoder)
    (h : (createDecoders codec is status d).1 = none) :
    status = none ∧
    (createDecoders codec is status d).2.Log = d.Log ++ is.map Event.create ∧
    (createDecoders codec is status d).2.Channels = d.Channels ∧
    (createDecoders codec is status d).2.InputFileData = d.InputFileData ∧
    (createDecoders codec is status d).2.DataIndex = d.DataIndex ∧
    (createDecoders codec is status d).2.DataSize = d.DataSize ∧
    (createDecoders codec is status d).2.Streaming = d.Streaming := by
  induction is generalizing d with
  | nil => exact ⟨h, by simp [createDecoders]⟩
  | cons i rest ih =>
    unfold createDecoders at h ⊢
    by_cases herr : (codec.create d.Creations).2 < 0
    · simp [herr, Status.SetFailed] at h
    · simp only [herr, if_false] at h ⊢
      obtain ⟨h1, h2, h3, h4, h5, h6, h7⟩ := ih _ h
      refine ⟨h1, ?_, h3, h4, h5, h6, h7⟩
      rw [h2]
      simp

/-- When the constructor accepts a file (status not failed), `Channels` is the channel count
of the header as it stands in the file; the constructor writes `Decoders[i]` for exactly
the indices `0 ≤ i < Channels`; and when the channel count is at most `MaxChannels` all
those indices are within the arrays. -/
theorem ctor_accepts_channels_unchecked (L : Layout) (fs : FileSystem) (codec : Codec)
    (status : Status) (streaming : Bool) (mem : FileDecoder)
    (hok : (FileDecoder.ctor L fs codec status streaming mem).1 = none) :
    (FileDecoder.ctor L fs codec status streaming mem).2.Channels =
      (FileDecoder.ctorHeader L fs streaming).Channels ∧
    (∀ i : Nat, Event.create i ∈ (FileDecoder.ctor L fs codec status streaming mem).2.Log ↔
      (i : Int) < (FileDecoder.ctor L fs codec status streaming mem).2.Channels) ∧
    ((FileDecoder.ctorHeader L fs streaming).Channels ≤ (L.MaxChannels : Int) →
      ∀ i : Nat, Event.create i ∈ (FileDecoder.ctor L fs codec status streaming mem).2.Log →
        i < L.MaxChannels) := by
  unfold FileDecoder.ctor at hok ⊢
  by_cases h1 : fs.IsOpen = true
  · by_cases h2 : sizeBelowHeader L fs.CurrentFileSize = true
    · simp [h1, h2, Status.SetFailed] at hok
    · by_cases h3 : fs.ReadFails = true
      · simp [h1, h2, h3, Status.Failed] at hok
      · cases status with
        | some m => simp [h1, h2, h3, Status.Failed] at hok
        | none =>
          by_cases h4 : (FileDecoder.ctorHeader L fs streaming).Name0 ≠ 90 ∨
              (FileDecoder.ctorHeader L fs streaming).Name1 ≠ 69
          · simp [h1, h2, h3, h4, Status.Failed, Status.SetFailed] at hok
          · simp only [h1, h2, h3, h4, Status.Failed, Bool.not_true, Bool.false_eq_true,
              if_false, Option.isSome_none] at hok ⊢
            obtain ⟨-, hlog, hch, -⟩ := createDecoders_ok _ _ _ _ hok
            refine ⟨hch, fun i => ?_, fun hmax i hi => ?_⟩
            · rw [hlog, hch]
              simp [channelRange]
            · rw [hlog] at hi
              simp [channelRange] at hi
              omega
  · simp [h1, Status.SetFailed] at hok

/-- C5 (the code at the failing input): a header with channel count nine, the arrays holding
eight entries. The constructor reports no failure, `Channels` is 9, and the creation loop
has written `Decoders[8]`, one past the end of the array. A header with channel count 0
is accepted as well. -/
theorem ctor_accepts_zero_and_nine_channels :
    (FileDecoder.ctor specLayout (fileOf (zeHeader 0)) countingCodec none false zeroMem).1 = none ∧
    (FileDecoder.ctor specLayout (fileOf (zeHeader 0)) countingCodec none false zeroMem).2.Channels
      = 0 ∧
    (FileDecoder.ctor specLayout (fileOf (zeHeader 9)) countingCodec none false zeroMem).1 = none ∧
    (FileDecoder.ctor specLayout (fileOf (zeHeader 9)) countingCodec none false zeroMem).2.Channels
      = 9 ∧
    specLayout.MaxChannels = 8 ∧
    Event.create 8 ∈
      (FileDecoder.ctor specLayout (fileOf (zeHeader 9)) countingCodec none false zeroMem).2.Log := by
  decide



/-! ### `DecodePacket`: frame rules -/

theorem finishDecodingPacket_queue (d : FileDecoder) :
    d.FinishDecodingPacket.DecodedPacketQueue = d.DecodedPacketQueue := by
  by_cases h : d.ParentAlive = false <;>
  simp [FileDecoder.FinishDecodingPacket, FileDecoder.dtor, h]

theorem finishDecodingPacket_dataIndex (d : FileDecoder) :
    d.FinishDecodingPacket.DataIndex = d.DataIndex := by
  by_cases h : d.ParentAlive = false <;>
  simp [FileDecoder.FinishDecodingPacket, FileDecoder.dtor, h]

/-- The loop body of `DecodePacket` leaves the queue, the channel count, the mode and the data
size alone. -/
theorem decodeChannel_frame (L : Layout) (codec : Codec) (st : FileDecoder × Int) (i : Nat) :
    (FileDecoder.decodeChannel L codec st i).1.DecodedPacketQueue = st.1.DecodedPacketQueue ∧
    (FileDecoder.decodeChannel L codec st i).1.Channels = st.1.Channels ∧
    (FileDecoder.decodeChannel L codec st i).1.Streaming = st.1.Streaming ∧
    (FileDecoder.decodeChannel L codec st i).1.DataSize = st.1.DataSize := by
  unfold FileDecoder.decodeChannel
  by_cases hs : st.1.Streaming = true <;>
  by_cases hv : (FileDecoder.packHead L st.1).invalid = true <;>
  by_cases ha : addU32 (addU32 st.1.DataIndex L.sizeofPacketHeader)
      ((FileDecoder.packHead L st.1).Size % U32) > st.1.DataSize <;>
  simp [hs, hv, ha]

theorem decodeChannel_fold_frame (L : Layout) (codec : Codec) (is : List Nat)
    (st : FileDecoder × Int) :
    (is.foldl (FileDecoder.decodeChannel L codec) st).1.DecodedPacketQueue
      = st.1.DecodedPacketQueue ∧
    (is.foldl (FileDecoder.decodeChannel L codec) st).1.Channels = st.1.Channels ∧
    (is.foldl (FileDecoder.decodeChannel L codec) st).1.Streaming = st.1.Streaming ∧
    (is.foldl (FileDecoder.decodeChannel L codec) st).1.DataSize = st.1.DataSize := by
  induction is generalizing st with
  | nil => simp
  | cons i rest ih =>
    obtain ⟨h1, h2, h3, h4⟩ := decodeChannel_frame L codec st i
    obtain ⟨k1, k2, k3, k4⟩ := ih (FileDecoder.decodeChannel L codec st i)
    simp only [List.foldl_cons]
    exact ⟨k1.trans h1, k2.trans h2, k3.trans h3, k4.trans h4⟩

/-- The value of the local `frames` after the loop body: zero for an invalid header, the
codec's return value otherwise. -/
theorem decodeChannel_frames (L : Layout) (codec : Codec) (st : FileDecoder × Int) (i : Nat) :
    (FileDecoder.decodeChannel L codec st i).2 =
      if (FileDecoder.packHead L st.1).invalid then 0
      else if st.1.Streaming then
        (codec.decode (st.1.Decoders i)
          ((st.1.InputFile.Read L.sizeofPacketHeader).2.Read
            ((FileDecoder.packHead L st.1).Size % U32)).1).2.1
      else
        (codec.decode (st.1.Decoders i) (bytesAt (st.1.InputFileData.getD [])
          (addU32 st.1.DataIndex L.sizeofPacketHeader)
          ((FileDecoder.packHead L st.1).Size % U32))).2.1 := by
  unfold FileDecoder.decodeChannel
  by_cases hs : st.1.Streaming = true <;>
  by_cases hv : (FileDecoder.packHead L st.1).invalid = true <;>
  by_cases ha : addU32 (addU32 st.1.DataIndex L.sizeofPacketHeader)
      ((FileDecoder.packHead L st.1).Size % U32) > st.1.DataSize <;>
  simp [hs, hv, ha]

/-- The loop body of `DecodePacket` touches neither the guard nor the task counter, and
dispatches nothing. -/
theorem decodeChannel_counters (L : Layout) (codec : Codec) (st : FileDecoder × Int) (i : Nat) :
    (FileDecoder.decodeChannel L codec st i).1.ParentAlive = st.1.ParentAlive ∧
    (FileDecoder.decodeChannel L codec st i).1.DecodingTaskCount = st.1.DecodingTaskCount ∧
    dispatches (FileDecoder.decodeChannel L codec st i).1.Log = dispatches st.1.Log := by
  unfold FileDecoder.decodeChannel
  by_cases hs : st.1.Streaming = true <;>
  by_cases hv : (FileDecoder.packHead L st.1).invalid = true <;>
  by_cases ha : addU32 (addU32 st.1.DataIndex L.sizeofPacketHeader)
      ((FileDecoder.packHead L st.1).Size % U32) > st.1.DataSize <;>
  simp [hs, hv, ha, dispatches, List.countP_append, List.countP_cons]

theorem decodeChannel_fold_counters (L : Layout) (codec : Codec) (is : List Nat)
    (st : FileDecoder × Int) :
    (is.foldl (FileDecoder.decodeChannel L codec) st).1.ParentAlive = st.1.ParentAlive ∧
    (is.foldl (FileDecoder.decodeChannel L codec) st).1.DecodingTaskCount
      = st.1.DecodingTaskCount ∧
    dispatches (is.foldl (FileDecoder.decodeChannel L codec) st).1.Log = dispatches st.1.Log := by
  induction is generalizing st with
  | nil => exact ⟨rfl, rfl, rfl⟩
  | cons i rest ih =>
    obtain ⟨h1, h2, h3⟩ := decodeChannel_counters L codec st i
    obtain ⟨k1, k2, k3⟩ := ih (FileDecoder.decodeChannel L codec st i)
    simp only [List.foldl_cons]
    exact ⟨k1.trans h1, k2.trans h2, k3.trans h3⟩

/-- The frame result of the loop body is never negative with the counting codec. -/
theorem decodeChannel_frames_counting (L : Layout) (st : FileDecoder × Int) (i : Nat) :
    0 ≤ (FileDecoder.decodeChannel L countingCodec st i).2 := by
  rw [decodeChannel_frames]
  split
  · exact le_refl 0
  · split <;> simp [countingCodec]

/-- The loop of `DecodePacket` leaves `Channels` as it was. -/
theorem decodeChannels_channels (L : Layout) (codec : Codec) (d : FileDecoder) :
    (FileDecoder.decodeChannels L codec d).1.Channels = d.Channels :=
  (decodeChannel_fold_frame L codec (channelRange d.Channels) (d, codec.junkFrames)).2.1

/-- The result of `QueueDecodedPackets`: no return for a negative argument on an object with
at least one channel, the filled block appended to the queue otherwise. -/
theorem queueDecodedPackets_eq (d : FileDecoder) (n : Int) :
    d.QueueDecodedPackets n =
      if n < 0 ∧ 0 < d.Channels then none
      else some { d with DecodedPacketQueue :=
        d.DecodedPacketQueue ++ [filledPacket d.DecodedPackets d.Channels (toUnsigned n)] } := by
  unfold FileDecoder.QueueDecodedPackets newPacket
  by_cases h : n < 0 ∧ 0 < d.Channels
  · rw [if_pos h, if_pos h]
  · rw [if_neg h, if_neg h]

/-- What `DecodePacket` does after the loop when data was found: nothing more than the
exception event when `QueueDecodedPackets` does not return (a negative frame result, at
least one channel); otherwise the block is pushed, the buffer released if the buffered
data is used up, and `FinishDecodingPacket` called. -/
theorem decodePacket_eq (L : Layout) (codec : Codec) (d : FileDecoder)
    (hdata : d.noData = false) :
    FileDecoder.DecodePacket L codec d =
      if (FileDecoder.decodeChannels L codec d).2 < 0 ∧ 0 < d.Channels then
        { (FileDecoder.decodeChannels L codec d).1 with
          Log := (FileDecoder.decodeChannels L codec d).1.Log ++ [Event.exception] }
      else
        FileDecoder.FinishDecodingPacket
          (if decide ((FileDecoder.decodeChannels L codec d).1.DataSize
                ≤ (FileDecoder.decodeChannels L codec d).1.DataIndex) &&
              !(FileDecoder.decodeChannels L codec d).1.Streaming
            then { (FileDecoder.decodeChannels L codec d).1 with
              DecodedPacketQueue := (FileDecoder.decodeChannels L codec d).1.DecodedPacketQueue ++
                [filledPacket (FileDecoder.decodeChannels L codec d).1.DecodedPackets d.Channels
                  (toUnsigned (FileDecoder.decodeChannels L codec d).2)],
              InputFileData := none,
              Log := (FileDecoder.decodeChannels L codec d).1.Log ++ [Event.free] }
            else { (FileDecoder.decodeChannels L codec d).1 with
              DecodedPacketQueue := (FileDecoder.decodeChannels L codec d).1.DecodedPacketQueue ++
                [filledPacket (FileDecoder.decodeChannels L codec d).1.DecodedPackets d.Channels
                  (toUnsigned (FileDecoder.decodeChannels L codec d).2)] }) := by
  have hc := decodeChannels_channels L codec d
  unfold FileDecoder.DecodePacket
  simp only [hdata, Bool.false_eq_true, if_false, queueDecodedPackets_eq, hc]
  by_cases h : (FileDecoder.decodeChannels L codec d).2 < 0 ∧ 0 < d.Channels
  · simp only [h, and_self, if_true]
  · simp only [h, if_false]

/-- A decode step that finds data and in which `QueueDecodedPackets` returns (the frame result
is not negative, or there is no channel) pushes exactly one block: the one
`QueueDecodedPackets` fills from the rows `DecodedPackets` for that frame count. -/
theorem decodePacket_queue (L : Layout) (codec : Codec) (d : FileDecoder)
    (hdata : d.noData = false)
    (hfr : ¬ ((FileDecoder.decodeChannels L codec d).2 < 0 ∧ 0 < d.Channels)) :
    (FileDecoder.DecodePacket L codec d).DecodedPacketQueue =
      d.DecodedPacketQueue ++
        [filledPacket (FileDecoder.decodeChannels L codec d).1.DecodedPackets d.Channels
          (toUnsigned (FileDecoder.decodeChannels L codec d).2)] := by
  obtain ⟨h1, -, -, -⟩ := decodeChannel_fold_frame L codec (channelRange d.Channels)
    (d, codec.junkFrames)
  rw [decodePacket_eq L codec d hdata, if_neg hfr, finishDecodingPacket_queue]
  unfold FileDecoder.decodeChannels at *
  split <;> simp [h1]

/-- A decode step that finds data on an object with at least one channel and whose loop leaves
a negative frame result ends in `QueueDecodedPackets`: the object stays as the loop left
it, nothing is pushed, the buffer is not looked at again and `FinishDecodingPacket` is
not reached. -/
theorem decodePacket_exception (L : Layout) (codec : Codec) (d : FileDecoder)
    (hdata : d.noData = false)
    (hfr : (FileDecoder.decodeChannels L codec d).2 < 0 ∧ 0 < d.Channels) :
    FileDecoder.DecodePacket L codec d =
      { (FileDecoder.decodeChannels L codec d).1 with
        Log := (FileDecoder.decodeChannels L codec d).1.Log ++ [Event.exception] } := by
  rw [decodePacket_eq L codec d hdata, if_pos hfr]

/-- The log after a decode step that found data, on an object whose guard is ALIVE, when
`QueueDecodedPackets` returns: the events of the loop, then the release of the buffer if
the buffered data is used up. -/
theorem decodePacket_log_alive (L : Layout) (codec : Codec) (d : FileDecoder)
    (hdata : d.noData = false)
    (hfr : ¬ ((FileDecoder.decodeChannels L codec d).2 < 0 ∧ 0 < d.Channels))
    (halive : d.ParentAlive = true) :
    (FileDecoder.DecodePacket L codec d).Log =
      (FileDecoder.decodeChannels L codec d).1.Log ++
        (if (FileDecoder.decodeChannels L codec d).1.DataSize
              ≤ (FileDecoder.decodeChannels L codec d).1.DataIndex ∧
            (FileDecoder.decodeChannels L codec d).1.Streaming = false
          then [Event.free] else []) := by
  have k1 : (FileDecoder.decodeChannels L codec d).1.ParentAlive = true :=
    (decodeChannel_fold_counters L codec (channelRange d.Channels) (d, codec.junkFrames)).1.trans
      halive
  rw [decodePacket_eq L codec d hdata, if_neg hfr]
  generalize FileDecoder.decodeChannels L codec d = r at k1 ⊢
  by_cases hle : r.1.DataSize ≤ r.1.DataIndex <;> by_cases hs : r.1.Streaming = true <;>
    simp [FileDecoder.FinishDecodingPacket, hle, hs, k1]

/-- C4 (the code at the failing input): a mono file with one well-formed packet for which the
codec returns -4. The loop leaves `frames` at -4, not 0, and `QueueDecodedPackets(-4)`
builds no block (the frame count would be 4294967292): no zero-frame block is pushed, the
queue stays empty, the call ends by the exception and the task counter, which
`FinishDecodingPacket` would have taken from 0 to -1, is not touched. -/
theorem decodePacket_codec_failure_frameCount :
    (bufferedDecoder failingCodec monoFile).noData = false ∧
    (FileDecoder.packHead specLayout (bufferedDecoder failingCodec monoFile)).invalid = false ∧
    (FileDecoder.decodeChannels specLayout failingCodec
      (bufferedDecoder failingCodec monoFile)).2 = -4 ∧
    toUnsigned (-4) = 4294967292 ∧
    ((FileDecoder.decodeChannels specLayout failingCodec
      (bufferedDecoder failingCodec monoFile)).1.QueueDecodedPackets (-4)).isNone = true ∧
    (FileDecoder.DecodePacket specLayout failingCodec
      (bufferedDecoder failingCodec monoFile)).DecodedPacketQueue = [] ∧
    (FileDecoder.DecodePacket specLayout failingCodec
      (bufferedDecoder failingCodec monoFile)).DecodingTaskCount =
      (bufferedDecoder failingCodec monoFile).DecodingTaskCount ∧
    (FileDecoder.DecodePacket specLayout failingCodec
      (bufferedDecoder failingCodec monoFile)).Log =
      [Event.alloc 21, Event.readFile 21, Event.readBuffer 0 12, Event.create 0,
       Event.readBuffer 12 8, Event.readBuffer 20 1, Event.exception] := by
  decide

/-- C7 (amended): for every packet processed by the loop body of `DecodePacket`, whatever its
magic tag, the read cursor afterwards is the cursor before plus the packet header size plus
the declared payload size, reduced modulo `2 ^ 32`; it is the exact sum whenever that sum
is below `2 ^ 32`. -/
theorem decodeChannel_cursor (L : Layout) (codec : Codec) (st : FileDecoder × Int) (i : Nat) :
    (FileDecoder.decodeChannel L codec st i).1.DataIndex =
      (st.1.DataIndex + L.sizeofPacketHeader + (FileDecoder.packHead L st.1).Size % U32) % U32 ∧
    (st.1.DataIndex + L.sizeofPacketHeader + (FileDecoder.packHead L st.1).Size % U32 < U32 →
      (FileDecoder.decodeChannel L codec st i).1.DataIndex =
        st.1.DataIndex + L.sizeofPacketHeader + (FileDecoder.packHead L st.1).Size % U32) := by
  have key : (FileDecoder.decodeChannel L codec st i).1.DataIndex =
      addU32 (addU32 st.1.DataIndex L.sizeofPacketHeader)
        ((FileDecoder.packHead L st.1).Size % U32) := by
    unfold FileDecoder.decodeChannel
    by_cases hs : st.1.Streaming = true <;>
    by_cases hv : (FileDecoder.packHead L st.1).invalid = true <;>
    by_cases ha : addU32 (addU32 st.1.DataIndex L.sizeofPacketHeader)
        ((FileDecoder.packHead L st.1).Size % U32) > st.1.DataSize <;>
    simp [hs, hv, ha]
  have hmod : addU32 (addU32 st.1.DataIndex L.sizeofPacketHeader)
        ((FileDecoder.packHead L st.1).Size % U32) =
      (st.1.DataIndex + L.sizeofPacketHeader + (FileDecoder.packHead L st.1).Size % U32) % U32 := by
    simp only [addU32, U32]
    omega
  refine ⟨key.trans hmod, fun hlt => ?_⟩
  rw [key, hmod, Nat.mod_eq_of_lt hlt]

/-- Witness of C7 (amended): the first packet of the mono file moves the cursor from 12 to
12 + 8 + 1. -/
theorem decodeChannel_cursor_witness :
    (FileDecoder.decodeChannel specLayout countingCodec
      (bufferedDecoder countingCodec monoFile, 0) 0).1.DataIndex =
      (bufferedDecoder countingCodec monoFile).DataIndex + specLayout.sizeofPacketHeader +
        (FileDecoder.packHead specLayout (bufferedDecoder countingCodec monoFile)).Size % U32 :=
  (decodeChannel_cursor specLayout countingCodec (bufferedDecoder countingCodec monoFile, 0) 0).2
    (by decide)

/-- C7 (counterexample): a packet header with a mismatched magic tag that declares
`0xFFFFFFFF` payload bytes; the cursor goes from 12 to 19, not to 12 + 8 + 4294967295. -/
theorem decodePacket_cursor_wraps :
    (bufferedDecoder countingCodec hugeSizeFile).noData = false ∧
    (bufferedDecoder countingCodec hugeSizeFile).Channels = 1 ∧
    (bufferedDecoder countingCodec hugeSizeFile).DataIndex = 12 ∧
    specLayout.sizeofPacketHeader = 8 ∧
    FileDecoder.packHead specLayout (bufferedDecoder countingCodec hugeSizeFile) =
      { Name0 := 120, Name1 := 120, Size := 4294967295 } ∧
    (FileDecoder.DecodePacket specLayout countingCodec
      (bufferedDecoder countingCodec hugeSizeFile)).DataIndex = 19 ∧
    (FileDecoder.DecodePacket specLayout countingCodec
      (bufferedDecoder countingCodec hugeSizeFile)).DataIndex ≠
      (bufferedDecoder countingCodec hugeSizeFile).DataIndex + specLayout.sizeofPacketHeader +
        (FileDecoder.packHead specLayout (bufferedDecoder countingCodec hugeSizeFile)).Size := by
  decide

/-- C8 (the code at the failing input): the constructor accepts a mono file whose only packet
header declares 200 payload bytes although the data ends with the header; `DecodePacket`
then has the cursor at 20 = `DataSize`, the `ErrorIf` fires, and the codec is handed the
200 bytes at offsets 20..219. -/
theorem decodePacket_payload_past_dataSize :
    (FileDecoder.ctor specLayout (fileOf overrunFile) countingCodec none false zeroMem).1 = none ∧
    (bufferedDecoder countingCodec overrunFile).DataSize = 20 ∧
    (FileDecoder.DecodePacket specLayout countingCodec
      (bufferedDecoder countingCodec overrunFile)).Log =
      [Event.alloc 20, Event.readFile 20, Event.readBuffer 0 12, Event.create 0,
       Event.readBuffer 12 8, Event.assertion, Event.readBuffer 20 200, Event.free] := by
  have hdata : (bufferedDecoder countingCodec overrunFile).noData = false := by decide
  have hfr : 0 ≤ (FileDecoder.decodeChannels specLayout countingCodec
      (bufferedDecoder countingCodec overrunFile)).2 := by
    have hr : channelRange (bufferedDecoder countingCodec overrunFile).Channels = [0] := by
      decide
    unfold FileDecoder.decodeChannels
    rw [hr]
    exact decodeChannel_frames_counting specLayout _ 0
  refine ⟨by decide, by decide, ?_⟩
  rw [decodePacket_log_alive specLayout countingCodec _ hdata (by omega) (by decide)]
  decide

/-! ### `QueueDecodedPackets`: interleaving -/

/-- The inner loop over a list of channels: it keeps the length of the buffer, advances the
index by the number of channels, writes the channel samples of the frame in order and
leaves everything before the start index alone. -/
theorem interleave_channels (DP : Nat → Nat → Sample) (frame : Nat) (cs : List Nat)
    (buf : List Sample) (index : Nat) (hfit : index + cs.length ≤ buf.length)
    (hbuf : buf.length < U32) :
    (cs.foldl (fun acc channel => (acc.1.set acc.2 (DP channel frame), addU32 acc.2 1))
        (buf, index)).1.length = buf.length ∧
    (cs.foldl (fun acc channel => (acc.1.set acc.2 (DP channel frame), addU32 acc.2 1))
        (buf, index)).2 = index + cs.length ∧
    (∀ k (hk : k < cs.length),
      (cs.foldl (fun acc channel => (acc.1.set acc.2 (DP channel frame), addU32 acc.2 1))
        (buf, index)).1[index + k]? = some (DP (cs.get ⟨k, hk⟩) frame)) ∧
    (∀ j, j < index →
      (cs.foldl (fun acc channel => (acc.1.set acc.2 (DP channel frame), addU32 acc.2 1))
        (buf, index)).1[j]? = buf[j]?) := by
  induction cs generalizing buf index with
  | nil => simp
  | cons c rest ih =>
    simp only [List.length_cons] at hfit
    have hstep : addU32 index 1 = index + 1 := by
      unfold addU32
      exact Nat.mod_eq_of_lt (by omega)
    simp only [List.foldl_cons, hstep]
    obtain ⟨h1, h2, h3, h4⟩ := ih (buf.set index (DP c frame)) (index + 1)
      (by simp; omega) (by simpa using hbuf)
    refine ⟨by simpa using h1, by simp [h2]; omega, ?_, ?_⟩
    · intro k hk
      cases k with
      | zero =>
        have hz : index + 0 = index := rfl
        rw [hz, h4 index (by omega)]
        simp [List.getElem?_set]
        omega
      | succ k =>
        have := h3 k (by simpa using hk)
        rw [show index + (k + 1) = index + 1 + k by omega]
        simpa using this
    · intro j hj
      rw [h4 j (by omega)]
      simp [List.getElem?_set]
      omega

/-- The outer loop over a list of frames. -/
theorem interleave_frames (DP : Nat → Nat → Sample) (C : Nat) (fs : List Nat)
    (buf : List Sample) (index : Nat) (hfit : index + fs.length * C ≤ buf.length)
    (hbuf : buf.length < U32) :
    (fs.foldl (interleaveFrame DP (C : Int)) (buf, index)).1.length = buf.length ∧
    (fs.foldl (interleaveFrame DP (C : Int)) (buf, index)).2 = index + fs.length * C ∧
    (∀ k (hk : k < fs.length) c, c < C →
      (fs.foldl (interleaveFrame DP (C : Int)) (buf, index)).1[index + k * C + c]? =
        some (DP c (fs.get ⟨k, hk⟩))) ∧
    (∀ j, j < index →
      (fs.foldl (interleaveFrame DP (C : Int)) (buf, index)).1[j]? = buf[j]?) := by
  induction fs generalizing buf index with
  | nil => simp
  | cons f rest ih =>
    simp only [List.length_cons, Nat.succ_mul] at hfit
    have hrange : channelRange (C : Int) = List.range C := by simp [channelRange]
    obtain ⟨a1, a2, a3, a4⟩ := interleave_channels DP f (List.range C) buf index
      (by simp; omega) hbuf
    simp only [List.length_range] at a2 a3
    have hstep : interleaveFrame DP (C : Int) (buf, index) f =
        ((interleaveFrame DP (C : Int) (buf, index) f).1, index + C) := by
      unfold interleaveFrame
      rw [hrange]
      exact Prod.ext rfl a2
    have hlen : (interleaveFrame DP (C : Int) (buf, index) f).1.length = buf.length := by
      unfold interleaveFrame
      rw [hrange]
      exact a1
    simp only [List.foldl_cons]
    rw [hstep]
    obtain ⟨h1, h2, h3, h4⟩ := ih (interleaveFrame DP (C : Int) (buf, index) f).1 (index + C)
      (by rw [hlen]; omega) (by rw [hlen]; exact hbuf)
    refine ⟨h1.trans hlen, by rw [h2]; simp [Nat.succ_mul]; omega, ?_, ?_⟩
    · intro k hk c hc
      cases k with
      | zero =>
        have hz : index + 0 * C + c = index + c := by simp
        rw [hz, h4 (index + c) (by omega)]
        have := a3 c (by simpa using hc)
        unfold interleaveFrame
        rw [hrange]
        simpa using this
      | succ k =>
        have := h3 k (by simpa using hk) c hc
        rw [show index + (k + 1) * C + c = index + C + k * C + c by rw [Nat.succ_mul]; omega]
        simpa using this
    · intro j hj
      rw [h4 j (by omega)]
      unfold interleaveFrame
      rw [hrange]
      exact a4 j hj

/-- C6: `QueueDecodedPackets` interleaves correctly. For a frame count `n ≥ 0` (an `int`) and a
channel count `C` (a `short`) whose product, the size of the new buffer, fits `unsigned`,
the call returns with one block appended to the queue and nothing else changed; the block
has `FrameCount = n`, a buffer of `n * C` samples, and the sample at index `f * C + c` is
`DecodedPackets[c][f]` for all `f < n`, `c < C`. -/
theorem queueDecodedPackets_interleaves (d : FileDecoder) (n C : Nat)
    (hn : n < 2147483648) (hC : d.Channels = (C : Int)) (hshort : C < 32768)
    (hsize : n * C < U32) :
    ∃ block : DecodedPacket,
      d.QueueDecodedPackets (n : Int) =
        some { d with DecodedPacketQueue := d.DecodedPacketQueue ++ [block] } ∧
      block.FrameCount = n ∧
      block.Samples.length = n * C ∧
      ∀ f c, f < n → c < C → block.Samples[f * C + c]? = some (d.DecodedPackets c f) := by
  have hun : toUnsigned (n : Int) = n := by
    unfold toUnsigned
    omega
  have huc : toUnsigned (C : Int) = C := by
    unfold toUnsigned
    omega
  have hmul : mulU32 n C = n * C := Nat.mod_eq_of_lt hsize
  have hneg : ¬ ((n : Int) < 0 ∧ 0 < d.Channels) := by omega
  obtain ⟨h1, -, h3, -⟩ := interleave_frames d.DecodedPackets C (List.range n)
    (List.replicate (n * C) (0 : Sample)) 0 (by simp) (by simpa using hsize)
  refine ⟨filledPacket d.DecodedPackets d.Channels n, ?_, rfl, ?_, ?_⟩
  · rw [queueDecodedPackets_eq, if_neg hneg, hun]
  · simp only [filledPacket, hC, huc, hmul]
    simpa using h1
  · intro f c hf hc
    simp only [filledPacket, hC, huc, hmul]
    have := h3 f (by simpa using hf) c hc
    simpa using this

/-- Witness of C6: two frames of two channels. -/
theorem queueDecodedPackets_interleaves_witness :
    ∃ block : DecodedPacket,
      (bufferedDecoder countingCodec badFirstChannelFile).QueueDecodedPackets ((2 : Nat) : Int) =
        some { bufferedDecoder countingCodec badFirstChannelFile with
          DecodedPacketQueue :=
            (bufferedDecoder countingCodec badFirstChannelFile).DecodedPacketQueue ++ [block] } ∧
      block.FrameCount = 2 ∧
      block.Samples.length = 2 * 2 ∧
      ∀ f c, f < 2 → c < 2 → block.Samples[f * 2 + c]? =
        some ((bufferedDecoder countingCodec badFirstChannelFile).DecodedPackets c f) :=
  queueDecodedPackets_interleaves (bufferedDecoder countingCodec badFirstChannelFile) 2 2
    (by decide) (by decide) (by decide) (by decide)

/-! ### Valid buffered files -/

/-- Inside the data, `bytesAt` is a slice. -/
theorem bytesAt_eq_take_drop (data : List Nat) (off len : Nat) (h : off + len ≤ data.length) :
    bytesAt data off len = (data.drop off).take len := by
  apply List.ext_getElem?
  intro k
  by_cases hk : k < len
  · have h1 : off + k < data.length := by omega
    simp [bytesAt, List.getElem?_map, List.getElem?_range, hk, List.getElem?_take,
      List.getElem?_drop, List.getD_eq_getElem?_getD, List.getElem?_eq_getElem h1]
  · simp [bytesAt, List.getElem?_map, hk, List.getElem?_take]
    omega

/-- The loop body of `DecodePacket` on a buffered decoder whose cursor stands at a well-formed
packet: the header and the payload are read inside the buffer, the channel decodes the
payload, and the cursor moves to the end of the packet. -/
theorem decodeChannel_wellFormed (L : Layout) (codec : Codec) (d : FileDecoder) (fr : Int)
    (i : Nat) (buf : List Nat) (p : Packet) (post : List Nat)
    (hS : d.Streaming = false) (hB : d.InputFileData = some buf) (hN : d.DataSize = buf.length)
    (hU : buf.length < U32) (hpos : buf.drop d.DataIndex = p.head ++ (p.payload ++ post))
    (hp : p.WellFormed L) :
    FileDecoder.decodeChannel L codec (d, fr) i =
      (d.advance (d.DataIndex + L.sizeofPacketHeader + p.payload.length)
          (playPacket L codec (d.bank, fr) (i, p)).1
          (d.Log ++ [Event.readBuffer d.DataIndex L.sizeofPacketHeader,
            Event.readBuffer (d.DataIndex + L.sizeofPacketHeader) p.payload.length]),
        (playPacket L codec (d.bank, fr) (i, p)).2) := by
  obtain ⟨hh, hn0, hn1, hsz, hpl⟩ := hp
  have hlen : buf.length - d.DataIndex = L.sizeofPacketHeader + (p.payload.length + post.length) := by
    have := congrArg List.length hpos
    simpa [hh] using this
  have hhead : bytesAt buf d.DataIndex L.sizeofPacketHeader = p.head := by
    rw [bytesAt_eq_take_drop _ _ _ (by omega), hpos, ← hh]
    simp
  have hpk : FileDecoder.packHead L d = L.readPacketHeader p.head := by
    simp [FileDecoder.packHead, hS, hB, hhead]
  have hsize : (L.readPacketHeader p.head).Size % U32 = p.payload.length := by
    rw [hsz]
    exact Nat.mod_eq_of_lt (by omega)
  have hvalid : (L.readPacketHeader p.head).invalid = false := by
    simp only [PacketHeader.invalid, hsize, hn0, hn1]
    simp
    exact List.ne_nil_of_length_pos hpl
  have hadd1 : addU32 d.DataIndex L.sizeofPacketHeader = d.DataIndex + L.sizeofPacketHeader :=
    Nat.mod_eq_of_lt (by omega)
  have hadd2 : addU32 (d.DataIndex + L.sizeofPacketHeader) p.payload.length =
      d.DataIndex + L.sizeofPacketHeader + p.payload.length :=
    Nat.mod_eq_of_lt (by omega)
  have hpay : bytesAt buf (d.DataIndex + L.sizeofPacketHeader) p.payload.length = p.payload := by
    rw [bytesAt_eq_take_drop _ _ _ (by omega), ← List.drop_drop, hpos, ← hh]
    simp
  have hno : ¬ (d.DataIndex + L.sizeofPacketHeader + p.payload.length > buf.length) := by omega
  simp [FileDecoder.decodeChannel, hpk, hsize, hvalid, hS, hB, hN, hadd1, hadd2, hpay, hno,
    FileDecoder.advance, playPacket, FileDecoder.bank]

theorem advance_streaming (d : FileDecoder) (k : Nat) (b : ChannelBank) (l : List Event) :
    (d.advance k b l).Streaming = d.Streaming := rfl

theorem advance_inputFileData (d : FileDecoder) (k : Nat) (b : ChannelBank)
    (l : List Event) : (d.advance k b l).InputFileData = d.InputFileData := rfl

theorem advance_dataSize (d : FileDecoder) (k : Nat) (b : ChannelBank) (l : List Event) :
    (d.advance k b l).DataSize = d.DataSize := rfl

theorem advance_dataIndex (d : FileDecoder) (k : Nat) (b : ChannelBank) (l : List Event) :
    (d.advance k b l).DataIndex = k := rfl

theorem advance_log (d : FileDecoder) (k : Nat) (b : ChannelBank) (l : List Event) :
    (d.advance k b l).Log = l := rfl

theorem advance_channels (d : FileDecoder) (k : Nat) (b : ChannelBank) (l : List Event) :
    (d.advance k b l).Channels = d.Channels := rfl

theorem advance_queue (d : FileDecoder) (k : Nat) (b : ChannelBank) (l : List Event) :
    (d.advance k b l).DecodedPacketQueue = d.DecodedPacketQueue := rfl

theorem advance_bank (d : FileDecoder) (k : Nat) (b : ChannelBank) (l : List Event) :
    (d.advance k b l).bank = b := rfl

theorem advance_advance (d : FileDecoder) (k k2 : Nat) (b b2 : ChannelBank)
    (l l2 : List Event) : (d.advance k b l).advance k2 b2 l2 = d.advance k2 b2 l2 := rfl

theorem advance_self (d : FileDecoder) : d.advance d.DataIndex d.bank d.Log = d := rfl

/-- The loop of `DecodePacket` over the indices `is` on a buffered decoder whose cursor stands
at the well-formed packets `ps`: index by index it consumes packet by packet. -/
theorem decodeChannel_fold_packets (L : Layout) (codec : Codec) (buf post : List Nat)
    (hU : buf.length < U32) (ps : List Packet) :
    ∀ (is : List Nat) (d : FileDecoder) (fr : Int), is.length = ps.length →
      d.Streaming = false → d.InputFileData = some buf → d.DataSize = buf.length →
      buf.drop d.DataIndex = packetsBytes ps ++ post → (∀ p ∈ ps, p.WellFormed L) →
      is.foldl (FileDecoder.decodeChannel L codec) (d, fr) =
        (d.advance (d.DataIndex + (packetsBytes ps).length)
            ((is.zip ps).foldl (playPacket L codec) (d.bank, fr)).1
            (d.Log ++ packetReads L d.DataIndex ps),
          ((is.zip ps).foldl (playPacket L codec) (d.bank, fr)).2) := by
  induction ps with
  | nil =>
    intro is d fr hl _ _ _ _ _
    have : is = [] := List.length_eq_zero.mp hl
    subst this
    simp [packetsBytes, packetReads, advance_self]
  | cons p ps ih =>
    intro is d fr hl hS hB hN hpos hwf
    cases is with
    | nil => simp at hl
    | cons i is =>
      have hp : p.WellFormed L := hwf p (List.mem_cons_self _ _)
      have hpos1 : buf.drop d.DataIndex = p.head ++ (p.payload ++ (packetsBytes ps ++ post)) := by
        rw [hpos]
        simp [packetsBytes]
      rw [List.foldl_cons, decodeChannel_wellFormed L codec d fr i buf p _ hS hB hN hU hpos1 hp]
      have hpos2 : buf.drop (d.DataIndex + L.sizeofPacketHeader + p.payload.length) =
          packetsBytes ps ++ post := by
        rw [Nat.add_assoc, ← List.drop_drop, hpos1, ← List.append_assoc, ← hp.1,
          ← List.length_append]
        simp
      rw [ih is _ _ (by simpa using hl) (by simpa [advance_streaming] using hS)
        (by simpa [advance_inputFileData] using hB) (by simpa [advance_dataSize] using hN)
        (by simpa [advance_dataIndex] using hpos2)
        (fun q hq => hwf q (List.mem_cons_of_mem _ hq))]
      simp [packetsBytes, packetReads, hp.1, Nat.add_assoc, advance_advance, advance_dataIndex,
        advance_bank, advance_log]

/-- Apart from the task counter and events other than reads, `FinishDecodingPacket` changes
nothing. -/
theorem finishDecodingPacket_fields (d : FileDecoder) :
    d.FinishDecodingPacket.Streaming = d.Streaming ∧
    d.FinishDecodingPacket.Channels = d.Channels ∧
    d.FinishDecodingPacket.DataSize = d.DataSize ∧
    d.FinishDecodingPacket.InputFileData = d.InputFileData ∧
    d.FinishDecodingPacket.bank = d.bank ∧
    (∀ off len, Event.readBuffer off len ∈ d.FinishDecodingPacket.Log ↔
      Event.readBuffer off len ∈ d.Log) := by
  by_cases h : d.ParentAlive = false
  · refine ⟨?_, ?_, ?_, ?_, ?_, fun off len => ?_⟩ <;>
      simp [FileDecoder.FinishDecodingPacket, FileDecoder.dtor, h, FileDecoder.bank]
  · simp [FileDecoder.FinishDecodingPacket, h, FileDecoder.bank]

/-- The members after a decode step that found data, in terms of the state `r` the loop over
the channels leaves; the buffer is deleted at the end of the data only when
`QueueDecodedPackets` has returned. -/
theorem decodePacket_fields (L : Layout) (codec : Codec) (d : FileDecoder)
    (hdata : d.noData = false) :
    (FileDecoder.DecodePacket L codec d).Streaming
      = (FileDecoder.decodeChannels L codec d).1.Streaming ∧
    (FileDecoder.DecodePacket L codec d).Channels
      = (FileDecoder.decodeChannels L codec d).1.Channels ∧
    (FileDecoder.DecodePacket L codec d).DataSize
      = (FileDecoder.decodeChannels L codec d).1.DataSize ∧
    (FileDecoder.DecodePacket L codec d).DataIndex
      = (FileDecoder.decodeChannels L codec d).1.DataIndex ∧
    (FileDecoder.DecodePacket L codec d).bank = (FileDecoder.decodeChannels L codec d).1.bank ∧
    (FileDecoder.DecodePacket L codec d).InputFileData =
      (if ¬ ((FileDecoder.decodeChannels L codec d).2 < 0 ∧ 0 < d.Channels) ∧
          (FileDecoder.decodeChannels L codec d).1.DataSize
            ≤ (FileDecoder.decodeChannels L codec d).1.DataIndex ∧
          (FileDecoder.decodeChannels L codec d).1.Streaming = false
        then none else (FileDecoder.decodeChannels L codec d).1.InputFileData) ∧
    (∀ off len, Event.readBuffer off len ∈ (FileDecoder.DecodePacket L codec d).Log ↔
      Event.readBuffer off len ∈ (FileDecoder.decodeChannels L codec d).1.Log) := by
  by_cases hfr : (FileDecoder.decodeChannels L codec d).2 < 0 ∧ 0 < d.Channels
  · rw [decodePacket_exception L codec d hdata hfr]
    refine ⟨rfl, rfl, rfl, rfl, rfl, ?_, fun off len => ?_⟩
    · simp [hfr]
    · simp
  · rw [decodePacket_eq L codec d hdata, if_neg hfr]
    generalize FileDecoder.decodeChannels L codec d = r at hfr ⊢
    refine ⟨?_, ?_, ?_, ?_, ?_, ?_, fun off len => ?_⟩
    · rw [(finishDecodingPacket_fields _).1]
      split <;> rfl
    · rw [(finishDecodingPacket_fields _).2.1]
      split <;> rfl
    · rw [(finishDecodingPacket_fields _).2.2.1]
      split <;> rfl
    · rw [finishDecodingPacket_dataIndex]
      split <;> rfl
    · rw [(finishDecodingPacket_fields _).2.2.2.2.1]
      split <;> rfl
    · rw [(finishDecodingPacket_fields _).2.2.2.1]
      by_cases hle : r.1.DataSize ≤ r.1.DataIndex <;> by_cases hs : r.1.Streaming = true <;>
        simp [hle, hs, hfr]
    · rw [(finishDecodingPacket_fields _).2.2.2.2.2]
      split <;> simp

/-- The reads of consecutive well-formed packets stay between the start offset and the end of
the last packet. -/
theorem packetReads_bound (L : Layout) (ps : List Packet) :
    ∀ (start off len : Nat), (∀ p ∈ ps, p.WellFormed L) →
      Event.readBuffer off len ∈ packetReads L start ps →
      start ≤ off ∧ off + len ≤ start + (packetsBytes ps).length := by
  induction ps with
  | nil => intro start off len _ h; simp [packetReads] at h
  | cons p ps ih =>
    intro start off len hwf h
    have hp := (hwf p (List.mem_cons_self _ _)).1
    simp only [packetReads, List.mem_cons] at h
    simp only [packetsBytes, List.length_append, hp]
    rcases h with h | h | h
    · injection h with h1 h2
      omega
    · injection h with h1 h2
      omega
    · have := ih _ off len (fun q hq => hwf q (List.mem_cons_of_mem _ hq)) h
      omega

/-- A decoder that finds data while standing somewhere in a valid file still holds the buffer
and has at least one packet set ahead. -/
theorem at_of_data (L : Layout) (C : Nat) (buf : List Nat) (d : FileDecoder)
    (rest : List (List Packet)) (hat : d.At L C buf rest) (hdata : d.noData = false) :
    d.InputFileData = some buf ∧ ∃ s ss, rest = s :: ss := by
  have hnd : d.InputFileData.isNone = false ∧ ¬ d.DataSize ≤ d.DataIndex := by
    simp only [FileDecoder.noData, Bool.or_eq_false_iff, decide_eq_false_iff_not] at hdata
    exact ⟨hdata.1.1, hdata.1.2⟩
  have hB : d.InputFileData = some buf := by
    rcases hat.buffer with h | h
    · exact h
    · rw [h.1] at hnd
      simp at hnd
  refine ⟨hB, ?_⟩
  cases rest with
  | nil =>
    have := congrArg List.length hat.position
    simp only [setsBytes, List.length_drop, List.length_nil] at this
    have hs := hat.size
    omega
  | cons s ss => exact ⟨s, ss, rfl⟩

/-- The loop of `DecodePacket` on a decoder standing at the packet set `s` of a valid file. -/
theorem decodeChannels_at_set (L : Layout) (codec : Codec) (C : Nat) (buf : List Nat)
    (d : FileDecoder) (s : List Packet) (ss : List (List Packet))
    (hat : d.At L C buf (s :: ss)) (hB : d.InputFileData = some buf) :
    FileDecoder.decodeChannels L codec d =
      (d.advance (d.DataIndex + (packetsBytes s).length)
          (((List.range s.length).zip s).foldl (playPacket L codec)
            (d.bank, codec.junkFrames)).1
          (d.Log ++ packetReads L d.DataIndex s),
        (((List.range s.length).zip s).foldl (playPacket L codec)
            (d.bank, codec.junkFrames)).2) := by
  have hlen : s.length = C := hat.complete s (List.mem_cons_self _ _)
  have hr : channelRange d.Channels = List.range s.length := by
    simp [channelRange, hat.channels, hlen]
  unfold FileDecoder.decodeChannels
  rw [hr]
  exact decodeChannel_fold_packets L codec buf (setsBytes ss) hat.fits s (List.range s.length) d
    codec.junkFrames (by simp) hat.streaming hB hat.size (by simpa [setsBytes] using hat.position)
    (hat.wellFormed s (List.mem_cons_self _ _))

/-- One decode step on a decoder standing at the packet set `s` of a valid file: the block of
`s`, if one is built, is appended to the queue, the cursor moves to the end of `s`, the
channel bank is the one file-order reading gives, and every new buffer read lies inside
the data. -/
theorem decodePacket_at_set (L : Layout) (codec : Codec) (C : Nat) (buf : List Nat)
    (d : FileDecoder) (s : List Packet) (ss : List (List Packet))
    (hat : d.At L C buf (s :: ss)) (hdata : d.noData = false) :
    (FileDecoder.DecodePacket L codec d).At L C buf ss ∧
    (FileDecoder.DecodePacket L codec d).DecodedPacketQueue =
      d.DecodedPacketQueue ++ (playSet L codec d.bank s).2.toList ∧
    (FileDecoder.DecodePacket L codec d).bank = (playSet L codec d.bank s).1 ∧
    (FileDecoder.DecodePacket L codec d).DataIndex = d.DataIndex + (packetsBytes s).length ∧
    (∀ off len, Event.readBuffer off len ∈ (FileDecoder.DecodePacket L codec d).Log →
      Event.readBuffer off len ∈ d.Log ∨ off + len ≤ buf.length) := by
  have hB := (at_of_data L C buf d _ hat hdata).1
  have hloop := decodeChannels_at_set L codec C buf d s ss hat hB
  obtain ⟨f1, f2, f3, f4, f5, f6, f7⟩ := decodePacket_fields L codec d hdata
  rw [hloop] at f1 f2 f3 f4 f5 f6 f7
  simp only [advance_streaming, advance_channels, advance_dataSize, advance_dataIndex,
    advance_bank, advance_inputFileData, advance_log] at f1 f2 f3 f4 f5 f6 f7
  have hlen : s.length = C := hat.complete s (List.mem_cons_self _ _)
  have hdrop := congrArg List.length hat.position
  simp only [setsBytes, List.length_drop, List.length_append] at hdrop
  have hw := hat.within
  have hpos : buf.drop (d.DataIndex + (packetsBytes s).length) = setsBytes ss := by
    rw [← List.drop_drop, hat.position]
    simp [setsBytes]
  refine ⟨⟨f1.trans hat.streaming, f2.trans hat.channels, f3.trans hat.size, hat.fits, ?_, ?_, ?_,
    fun t ht => hat.complete t (List.mem_cons_of_mem _ ht),
    fun t ht => hat.wellFormed t (List.mem_cons_of_mem _ ht)⟩, ?_, ?_, f4, ?_⟩
  · rw [f6]
    by_cases hend : ¬ ((((List.range s.length).zip s).foldl (playPacket L codec)
        (d.bank, codec.junkFrames)).2 < 0 ∧ 0 < d.Channels) ∧
        d.DataSize ≤ d.DataIndex + (packetsBytes s).length ∧ d.Streaming = false
    · right
      refine ⟨by rw [if_pos hend], ?_⟩
      rw [← hpos]
      apply List.drop_eq_nil_of_le
      have := hat.size
      have := hend.2.1
      omega
    · left
      rw [if_neg hend]
      exact hB
  · rw [f4]
    exact hpos
  · rw [f4]
    omega
  · have hch : d.Channels = (s.length : Int) := by rw [hat.channels, hlen]
    by_cases hfr : (FileDecoder.decodeChannels L codec d).2 < 0 ∧ 0 < d.Channels
    · rw [decodePacket_exception L codec d hdata hfr]
      rw [hloop, hch] at hfr
      rw [hloop]
      have hnone : (playSet L codec d.bank s).2 = none := by
        show newPacket _ (s.length : Int) _ = none
        unfold newPacket
        rw [if_pos hfr]
      rw [hnone]
      simp [FileDecoder.advance]
    · rw [decodePacket_queue L codec d hdata hfr]
      rw [hloop, hch] at hfr
      rw [hloop]
      have hsome : (playSet L codec d.bank s).2 = some (filledPacket
          (((List.range s.length).zip s).foldl (playPacket L codec)
            (d.bank, codec.junkFrames)).1.DecodedPackets (s.length : Int)
          (toUnsigned (((List.range s.length).zip s).foldl (playPacket L codec)
            (d.bank, codec.junkFrames)).2)) := by
        show newPacket _ (s.length : Int) _ = some _
        unfold newPacket
        rw [if_neg hfr]
      rw [hsome, hch]
      simp [FileDecoder.advance, FileDecoder.bank]
  · rw [f5]
    simp [playSet]
  · intro off len hmem
    rw [f7] at hmem
    rcases List.mem_append.mp hmem with h | h
    · exact Or.inl h
    · right
      have := packetReads_bound L s d.DataIndex off len
        (hat.wellFormed s (List.mem_cons_self _ _)) h
      omega

/-- A decode step that finds no data keeps the decoder where it is. -/
theorem decodePacket_at_noData (L : Layout) (codec : Codec) (C : Nat) (buf : List Nat)
    (d : FileDecoder) (rest : List (List Packet))
    (hat : d.At L C buf rest) (hdata : d.noData = true) :
    (FileDecoder.DecodePacket L codec d).At L C buf rest ∧
    (FileDecoder.DecodePacket L codec d).DecodedPacketQueue = d.DecodedPacketQueue ∧
    (FileDecoder.DecodePacket L codec d).bank = d.bank ∧
    (FileDecoder.DecodePacket L codec d).DataIndex = d.DataIndex ∧
    (∀ off len, Event.readBuffer off len ∈ (FileDecoder.DecodePacket L codec d).Log ↔
      Event.readBuffer off len ∈ d.Log) := by
  have he : FileDecoder.DecodePacket L codec d = d.FinishDecodingPacket := by
    simp [FileDecoder.DecodePacket, hdata]
  obtain ⟨f1, f2, f3, f4, f5, f6⟩ := finishDecodingPacket_fields d
  have f7 := finishDecodingPacket_dataIndex d
  rw [he]
  refine ⟨⟨f1.trans hat.streaming, f2.trans hat.channels, f3.trans hat.size, hat.fits, ?_, ?_, ?_,
    hat.complete, hat.wellFormed⟩, finishDecodingPacket_queue d, f5, f7, f6⟩
  · rw [f4]
    exact hat.buffer
  · rw [f7]
    exact hat.position
  · rw [f7]
    exact hat.within

/-- The state a buffered construction leaves on a valid file stands at its first set. -/
theorem at_of_buffers (L : Layout) (C : Nat) (header : List Nat) (sets : List (List Packet))
    (d : FileDecoder) (hv : ValidFile L C header sets) (hd : d.Buffers L C header sets) :
    d.At L C (header ++ setsBytes sets) sets where
  streaming := hd.streaming
  channels := hd.channels
  size := hd.size
  fits := hv.fits
  buffer := Or.inl hd.data
  position := by rw [hd.index, ← hv.headerSize]; simp
  within := by rw [hd.index, ← hv.headerSize]; simp
  complete := hv.complete
  wellFormed := hv.wellFormed

/-- Any number of decode steps from a place inside a valid file stays inside it, and every
buffer read made on the way lies inside the data. -/
theorem decodeSteps_at (L : Layout) (codec : Codec) (C : Nat) (buf : List Nat) :
    ∀ (n : Nat) (d : FileDecoder) (rest : List (List Packet)), d.At L C buf rest →
      (∃ rest2, (FileDecoder.decodeSteps L codec n d).At L C buf rest2) ∧
      (∀ off len, Event.readBuffer off len ∈ (FileDecoder.decodeSteps L codec n d).Log →
        Event.readBuffer off len ∈ d.Log ∨ off + len ≤ buf.length) := by
  intro n
  induction n with
  | zero => intro d rest hat; exact ⟨⟨rest, hat⟩, fun off len h => Or.inl h⟩
  | succ n ih =>
    intro d rest hat
    simp only [FileDecoder.decodeSteps]
    by_cases hdata : d.noData = true
    · obtain ⟨hat2, -, -, -, hlog⟩ := decodePacket_at_noData L codec C buf d rest hat hdata
      obtain ⟨h1, h2⟩ := ih _ rest hat2
      refine ⟨h1, fun off len h => ?_⟩
      rcases h2 off len h with h | h
      · exact Or.inl ((hlog off len).1 h)
      · exact Or.inr h
    · have hdata2 : d.noData = false := by simpa using hdata
      obtain ⟨-, s, ss, hrest⟩ := at_of_data L C buf d rest hat hdata2
      subst hrest
      obtain ⟨hat2, -, -, -, hlog⟩ := decodePacket_at_set L codec C buf d s ss hat hdata2
      obtain ⟨h1, h2⟩ := ih _ ss hat2
      refine ⟨h1, fun off len h => ?_⟩
      rcases h2 off len h with h | h
      · exact hlog off len h
      · exact Or.inr h

/-- C9: on a valid buffered file (a file header followed by complete sets of `Channels`
well-formed packets that fill `DataSize`), after any number of `DecodePacket` calls the
cursor is at most `DataSize`, and every range of the buffer read by those calls, packet
headers and payloads alike, ends at or before `DataSize`. -/
theorem decodePacket_reads_within_valid_file (L : Layout) (codec : Codec) (C : Nat)
    (header : List Nat) (sets : List (List Packet)) (d : FileDecoder)
    (hv : ValidFile L C header sets) (hd : d.Buffers L C header sets) (n : Nat) :
    (FileDecoder.decodeSteps L codec n d).DataSize = d.DataSize ∧
    (FileDecoder.decodeSteps L codec n d).DataIndex ≤ d.DataSize ∧
    (∀ off len, Event.readBuffer off len ∈ (FileDecoder.decodeSteps L codec n d).Log →
      Event.readBuffer off len ∈ d.Log ∨ off + len ≤ d.DataSize) := by
  obtain ⟨⟨rest2, hat2⟩, hlog⟩ := decodeSteps_at L codec C (header ++ setsBytes sets) n d sets
    (at_of_buffers L C header sets d hv hd)
  rw [hd.size]
  exact ⟨hat2.size, hat2.within, hlog⟩

/-- Witness of C9: three decode steps on the example file of two packet sets for two
channels, 49 bytes long. -/
theorem decodePacket_reads_within_valid_file_witness :
    ValidFile specLayout 2 (zeHeader 2) twoSets ∧
    (bufferedDecoder countingCodec (zeHeader 2 ++ setsBytes twoSets)).Buffers specLayout 2
      (zeHeader 2) twoSets ∧
    (FileDecoder.decodeSteps specLayout countingCodec 3
      (bufferedDecoder countingCodec (zeHeader 2 ++ setsBytes twoSets))).DataIndex ≤
      (bufferedDecoder countingCodec (zeHeader 2 ++ setsBytes twoSets)).DataSize ∧
    (∀ off len, Event.readBuffer off len ∈ (FileDecoder.decodeSteps specLayout countingCodec 3
        (bufferedDecoder countingCodec (zeHeader 2 ++ setsBytes twoSets))).Log →
      Event.readBuffer off len ∈
          (bufferedDecoder countingCodec (zeHeader 2 ++ setsBytes twoSets)).Log ∨
        off + len ≤ (bufferedDecoder countingCodec (zeHeader 2 ++ setsBytes twoSets)).DataSize) :=
  have hv : ValidFile specLayout 2 (zeHeader 2) twoSets :=
    ⟨by decide, by decide, by decide, by decide⟩
  have hd : (bufferedDecoder countingCodec (zeHeader 2 ++ setsBytes twoSets)).Buffers specLayout 2
      (zeHeader 2) twoSets :=
    ⟨by decide, by decide, by decide, by decide, by decide⟩
  ⟨hv, hd, (decodePacket_reads_within_valid_file specLayout countingCodec 2 (zeHeader 2) twoSets
      (bufferedDecoder countingCodec (zeHeader 2 ++ setsBytes twoSets)) hv hd 3).2⟩

/-! ### File order -/

/-- C10 (the code at the failing input): a valid buffered file for two channels with one
packet set, both packets well formed; the codec decodes the packet of channel 0 to one
frame and returns -4 for the packet of channel 1. The decode step finds data, consumes
the set (the cursor goes from 12 to 30) and ends in `QueueDecodedPackets(-4)` by the
exception: it pushes no block, and the queue stays empty. -/
theorem decodePacket_valid_file_pushes_no_block :
    ValidFile specLayout 2 (zeHeader 2) lastFailsSets ∧
    zeHeader 2 ++ setsBytes lastFailsSets = lastFailsFile ∧
    (bufferedDecoder lastFailsCodec lastFailsFile).noData = false ∧
    (bufferedDecoder lastFailsCodec lastFailsFile).DataIndex = 12 ∧
    (FileDecoder.decodeChannel specLayout lastFailsCodec
      (bufferedDecoder lastFailsCodec lastFailsFile, 0) 0).2 = 1 ∧
    (FileDecoder.decodeChannels specLayout lastFailsCodec
      (bufferedDecoder lastFailsCodec lastFailsFile)).2 = -4 ∧
    (FileDecoder.DecodePacket specLayout lastFailsCodec
      (bufferedDecoder lastFailsCodec lastFailsFile)).DataIndex = 30 ∧
    (FileDecoder.DecodePacket specLayout lastFailsCodec
      (bufferedDecoder lastFailsCodec lastFailsFile)).DecodedPacketQueue = [] ∧
    (FileDecoder.DecodePacket specLayout lastFailsCodec
      (bufferedDecoder lastFailsCodec lastFailsFile)).Log =
      [Event.alloc 30, Event.readFile 30, Event.readBuffer 0 12, Event.create 0, Event.create 1,
       Event.readBuffer 12 8, Event.readBuffer 20 1, Event.readBuffer 21 8,
       Event.readBuffer 29 1, Event.exception] :=
  ⟨⟨by decide, by decide, by decide, by decide⟩, by decide, by decide, by decide, by decide,
    by decide, by decide, by decide, by decide⟩

/-- A successful buffered construction on a valid file leaves the state `Buffers` describes:
the whole file in the buffer, `DataSize` its length, the cursor just past the header and
`Channels` the channel count of the header. -/
theorem ctor_buffers (L : Layout) (codec : Codec) (mem : FileDecoder) (C : Nat)
    (header : List Nat) (sets : List (List Packet)) (hv : ValidFile L C header sets)
    (hch : (L.readFileHeader header).Channels = (C : Int))
    (hok : (FileDecoder.ctor L (fileOf (header ++ setsBytes sets)) codec none false mem).1 = none) :
    (FileDecoder.ctor L (fileOf (header ++ setsBytes sets)) codec none false mem).2.Buffers L C
      header sets := by
  have hfit := hv.fits
  have hsz : toUnsigned ((header ++ setsBytes sets).length : Int) =
      (header ++ setsBytes sets).length := by
    unfold toUnsigned
    unfold U32 at hfit
    omega
  have hhl : L.sizeofFileHeader ≤ (header ++ setsBytes sets).length := by
    rw [← hv.headerSize]
    simp
  have hhdr : FileDecoder.ctorHeader L (fileOf (header ++ setsBytes sets)) false =
      L.readFileHeader header := by
    simp only [FileDecoder.ctorHeader, FileDecoder.ctorAsked, fileOf, hsz, Bool.false_eq_true,
      if_false, List.take_length]
    rw [bytesAt_eq_take_drop _ _ _ (by omega), ← hv.headerSize]
    simp
  have hidx : addU32 0 L.sizeofFileHeader = L.sizeofFileHeader := by
    unfold addU32
    rw [Nat.zero_add]
    exact Nat.mod_eq_of_lt (by omega)
  unfold FileDecoder.ctor at hok ⊢
  by_cases h2 : sizeBelowHeader L (fileOf (header ++ setsBytes sets)).CurrentFileSize = true
  · simp [fileOf, h2, Status.SetFailed] at hok
    simp [fileOf] at h2
    simp [h2] at hok
  · by_cases h4 : (FileDecoder.ctorHeader L (fileOf (header ++ setsBytes sets)) false).Name0 ≠ 90 ∨
        (FileDecoder.ctorHeader L (fileOf (header ++ setsBytes sets)) false).Name1 ≠ 69
    · have hO : (fileOf (header ++ setsBytes sets)).IsOpen = true := rfl
      have hR : (fileOf (header ++ setsBytes sets)).ReadFails = false := rfl
      simp [hO, hR, h2, h4, Status.Failed, Status.SetFailed] at hok
    · have hO : (fileOf (header ++ setsBytes sets)).IsOpen = true := rfl
      have hR : (fileOf (header ++ setsBytes sets)).ReadFails = false := rfl
      simp only [hO, hR, h2, h4, Status.Failed, Bool.not_true, Bool.false_eq_true,
        if_false, Option.isSome_none] at hok ⊢
      obtain ⟨-, -, k3, k4, k5, k6, k7⟩ := createDecoders_ok _ _ _ _ hok
      refine ⟨k7, ?_, ?_, ?_, ?_⟩
      · rw [k4]
        simp only [FileDecoder.ctorAsked, fileOf, Bool.false_eq_true, if_false, hsz,
          List.take_length]
      · rw [k6]
        simp only [fileOf, hsz]
      · rw [k5]
        exact hidx
      · rw [k3, hhdr]
        exact hch

/-! ### Lifetime guard and task counter -/

theorem toSigned32_of_range (x : Int) (hlo : -2147483648 ≤ x) (hhi : x ≤ 2147483647) :
    toSigned32 x = x := by
  unfold toSigned32
  omega

theorem finishDecodingPacket_parentAlive (d : FileDecoder) :
    d.FinishDecodingPacket.ParentAlive = d.ParentAlive := by
  by_cases h : d.ParentAlive = false <;>
  simp [FileDecoder.FinishDecodingPacket, FileDecoder.dtor, h]

/-- How often `FinishDecodingPacket` frees the instance: once when `ParentAlive` is null, not
at all otherwise. -/
theorem finishDecodingPacket_deletions (d : FileDecoder) :
    deletions d.FinishDecodingPacket.Log =
      deletions d.Log + (if d.ParentAlive = false then 1 else 0) := by
  by_cases h : d.ParentAlive = false
  · by_cases hb : d.InputFileData.isSome = true <;>
    simp [FileDecoder.FinishDecodingPacket, FileDecoder.dtor, h, hb, deletions,
      List.count_append, List.count_eq_zero, List.mem_map]
  · simp [FileDecoder.FinishDecodingPacket, h]

/-- C13 (counterexample): with the guard RETIRED and two tasks outstanding, the first finishing
task leaves the counter at 1, so another task is still outstanding, and deletes the
instance all the same. -/
theorem finishDecodingPacket_deletes_with_task_outstanding :
    (FileDecoder.FinishDecodingPacket
      { zeroMem with ParentAlive := false, DecodingTaskCount := 2 }).DecodingTaskCount = 1 ∧
    deletions (FileDecoder.FinishDecodingPacket
      { zeroMem with ParentAlive := false, DecodingTaskCount := 2 }).Log =
      deletions ({ zeroMem with ParentAlive := false, DecodingTaskCount := 2 } : FileDecoder).Log
        + 1 := by
  decide

/-- C13 (amended): `FinishDecodingPacket` frees the instance only if the Lifetime Guard is
RETIRED, and when it is RETIRED it frees the instance whatever the value `c` of the
outstanding-task counter: the counter is decremented but not consulted. -/
theorem finishDecodingPacket_ignores_counter (d : FileDecoder) (c : Int) :
    deletions (FileDecoder.FinishDecodingPacket { d with DecodingTaskCount := c }).Log =
      deletions d.Log + (if d.ParentAlive = false then 1 else 0) :=
  finishDecodingPacket_deletions { d with DecodingTaskCount := c }

/-- C14: on completion of a decode task `FinishDecodingPacket` decrements the task counter by
one (the counter being a 32-bit value above its minimum), and frees the instance if and
only if `ParentAlive` is null, in which case the destructor runs on the decremented
state; with the guard ALIVE nothing but the counter changes. -/
theorem finishDecodingPacket_decrements_then_checks (d : FileDecoder)
    (hlo : -2147483648 < d.DecodingTaskCount) (hhi : d.DecodingTaskCount ≤ 2147483647) :
    d.FinishDecodingPacket.DecodingTaskCount = d.DecodingTaskCount - 1 ∧
    (deletions d.FinishDecodingPacket.Log = deletions d.Log + 1 ↔ d.ParentAlive = false) ∧
    (d.ParentAlive = true →
      d.FinishDecodingPacket = { d with DecodingTaskCount := d.DecodingTaskCount - 1 }) ∧
    (d.ParentAlive = false →
      d.FinishDecodingPacket =
        FileDecoder.dtor { d with DecodingTaskCount := d.DecodingTaskCount - 1,
                                  Log := d.Log ++ [Event.deleteThis] }) := by
  have hdec : toSigned32 (d.DecodingTaskCount - 1) = d.DecodingTaskCount - 1 :=
    toSigned32_of_range _ (by omega) (by omega)
  refine ⟨?_, ?_, ?_, ?_⟩
  · by_cases h : d.ParentAlive = false <;>
    simp [FileDecoder.FinishDecodingPacket, FileDecoder.dtor, h, hdec]
  · rw [finishDecodingPacket_deletions]
    by_cases h : d.ParentAlive = false <;> simp [h]
  · intro h
    simp [FileDecoder.FinishDecodingPacket, h, hdec]
  · intro h
    simp [FileDecoder.FinishDecodingPacket, h, hdec]

/-- Witness of C14: a retired decoder with one outstanding task. -/
theorem finishDecodingPacket_decrements_then_checks_witness :
    (FileDecoder.FinishDecodingPacket { zeroMem with DecodingTaskCount := 1 }).DecodingTaskCount
      = 1 - 1 ∧
    (deletions (FileDecoder.FinishDecodingPacket { zeroMem with DecodingTaskCount := 1 }).Log =
        deletions ({ zeroMem with DecodingTaskCount := 1 } : FileDecoder).Log + 1 ↔
      ({ zeroMem with DecodingTaskCount := 1 } : FileDecoder).ParentAlive = false) :=
  have h := finishDecodingPacket_decrements_then_checks
    ({ zeroMem with DecodingTaskCount := 1 } : FileDecoder) (by decide) (by decide)
  ⟨h.1, h.2.1⟩

/-- C15 (the code at the failing input): once the guard is RETIRED, two outstanding tasks that
complete one after the other each execute `delete this`: the instance is freed twice,
whatever the counter `c` says. -/
theorem finishDecodingPacket_twice_deletes_twice (d : FileDecoder) (c : Int) :
    deletions (FileDecoder.FinishDecodingPacket (FileDecoder.FinishDecodingPacket
      { d with ParentAlive := false, DecodingTaskCount := c })).Log = deletions d.Log + 2 := by
  rw [finishDecodingPacket_deletions, finishDecodingPacket_parentAlive,
    finishDecodingPacket_deletions]
  simp

/-- C16: `AddDecodingTask` increments the task counter by one (the counter being a 32-bit value
below its maximum), then dispatches one task, which already sees the incremented counter;
no other member changes. -/
theorem addDecodingTask_increments_then_dispatches (d : FileDecoder)
    (hlo : -2147483648 ≤ d.DecodingTaskCount) (hhi : d.DecodingTaskCount < 2147483647) :
    d.AddDecodingTask.DecodingTaskCount = d.DecodingTaskCount + 1 ∧
    d.AddDecodingTask.Log = d.Log ++ [Event.task (d.DecodingTaskCount + 1)] ∧
    dispatches d.AddDecodingTask.Log = dispatches d.Log + 1 ∧
    d.AddDecodingTask = { d with DecodingTaskCount := d.DecodingTaskCount + 1,
                                 Log := d.Log ++ [Event.task (d.DecodingTaskCount + 1)] } := by
  have hinc : toSigned32 (d.DecodingTaskCount + 1) = d.DecodingTaskCount + 1 :=
    toSigned32_of_range _ (by omega) (by omega)
  simp [FileDecoder.AddDecodingTask, hinc, dispatches, List.countP_append]

/-- Witness of C16: the first task of a decoder. -/
theorem addDecodingTask_increments_then_dispatches_witness :
    zeroMem.AddDecodingTask.DecodingTaskCount = zeroMem.DecodingTaskCount + 1 ∧
    zeroMem.AddDecodingTask.Log = zeroMem.Log ++ [Event.task (zeroMem.DecodingTaskCount + 1)] :=
  have h := addDecodingTask_increments_then_dispatches zeroMem (by decide) (by decide)
  ⟨h.1, h.2.1⟩

/-! ### `CloseStream` -/

theorem drainQueue_eq (q : List DecodedPacket) (d : FileDecoder) :
    drainQueue q d = { d with DecodedPacketQueue := [], Log := d.Log ++ q.map Event.pop } := by
  induction q generalizing d with
  | nil => simp [drainQueue]
  | cons p rest ih => simp [drainQueue, ih]

theorem closeStream_eq (d : FileDecoder) :
    d.CloseStream = { d with InputFile := { d.InputFile with IsOpen := false },
                             DecodedPacketQueue := [],
                             Log := d.Log ++ d.DecodedPacketQueue.map Event.pop } := by
  unfold FileDecoder.CloseStream
  by_cases h : d.InputFile.IsOpen = true
  · simp [h, drainQueue_eq]
  · have hf : d.InputFile.IsOpen = false := by simpa using h
    have hI : ({ d.InputFile with IsOpen := false } : File) = d.InputFile := by
      cases hc : d.InputFile
      rw [hc] at hf
      simp at hf
      simp [hf]
    simp only [h, Bool.false_eq_true, if_false, drainQueue_eq, hI]

/-- C19: after `CloseStream` the stream file is closed (`StreamIsOpen` is false) and the queue
is empty, whatever was queued; each block that was queued has been taken out by one
`Read` and dropped, and no other member has changed. -/
theorem closeStream_closes_and_drains (d : FileDecoder) :
    d.CloseStream.StreamIsOpen = false ∧
    d.CloseStream.DecodedPacketQueue = [] ∧
    d.CloseStream.Log = d.Log ++ d.DecodedPacketQueue.map Event.pop ∧
    d.CloseStream = { d with InputFile := { d.InputFile with IsOpen := false },
                             DecodedPacketQueue := [],
                             Log := d.Log ++ d.DecodedPacketQueue.map Event.pop } := by
  have key := closeStream_eq d
  refine ⟨?_, ?_, ?_, key⟩
  · rw [key]
    rfl
  · rw [key]
  · rw [key]

/-! ### The constructor: success and failure paths -/

/-- The creation loop of the constructor never allocates or destroys; either it leaves the
status un-failed, or it has released the buffer once and nulled `InputFileData`. -/
theorem createDecoders_balance (codec : Codec) (is : List Nat) (d : FileDecoder) :
    allocations (createDecoders codec is none d).2.Log = allocations d.Log ∧
    destructions (createDecoders codec is none d).2.Log = destructions d.Log ∧
    (((createDecoders codec is none d).1 = none ∧
        releases (createDecoders codec is none d).2.Log = releases d.Log) ∨
      (releases (createDecoders codec is none d).2.Log = releases d.Log + 1 ∧
        (createDecoders codec is none d).2.InputFileData = none)) := by
  induction is generalizing d with
  | nil => simp [createDecoders]
  | cons i rest ih =>
    unfold createDecoders
    by_cases herr : (codec.create d.Creations).2 < 0
    · simp [herr, allocations, destructions, releases, List.countP_append, List.count_append]
    · simp only [herr, if_false]
      obtain ⟨h1, h2, h3⟩ := ih
        { d with Decoders := setAt d.Decoders i (codec.create d.Creations).1,
                 Creations := d.Creations + 1, Log := d.Log ++ [Event.create i] }
      refine ⟨?_, ?_, ?_⟩
      · rw [h1]
        simp [allocations, List.countP_append]
      · rw [h2]
        simp [destructions, List.countP_append]
      · rcases h3 with ⟨h3, h4⟩ | ⟨h3, h4⟩
        · left
          refine ⟨h3, ?_⟩
          rw [h4]
          simp [releases, List.count_append]
        · right
          refine ⟨?_, h4⟩
          rw [h3]
          simp [releases, List.count_append]

/-- A failing creation loop that starts with one unreleased buffer and no destroyed decoder
ends with the buffer released and nulled, and still no destroyed decoder. -/
theorem createDecoders_failure (codec : Codec) (is : List Nat) (d : FileDecoder)
    (hfail : Option.isSome (createDecoders codec is none d).1 = true)
    (ha : allocations d.Log = releases d.Log + 1) (hd : destructions d.Log = 0) :
    (createDecoders codec is none d).2.InputFileData = none ∧
    allocations (createDecoders codec is none d).2.Log =
      releases (createDecoders codec is none d).2.Log ∧
    destructions (createDecoders codec is none d).2.Log = 0 := by
  obtain ⟨k1, k2, k3⟩ := createDecoders_balance codec is d
  rcases k3 with ⟨k3, -⟩ | ⟨k3, k4⟩
  · rw [k3] at hfail
    simp at hfail
  · exact ⟨k4, by rw [k1, k3, ha], by rw [k2, hd]⟩

/-- On every path on which the constructor reports failure, `InputFileData` is null on return
and each buffer allocated during the call has been released; no path of the constructor
destroys a channel decoder. -/
theorem ctor_failure_releases_buffer_only (L : Layout) (fs : FileSystem) (codec : Codec)
    (status : Status) (streaming : Bool) (mem : FileDecoder)
    (hfail : (FileDecoder.ctor L fs codec status streaming mem).1.Failed = true) :
    (FileDecoder.ctor L fs codec status streaming mem).2.InputFileData = none ∧
    allocations (FileDecoder.ctor L fs codec status streaming mem).2.Log =
      releases (FileDecoder.ctor L fs codec status streaming mem).2.Log ∧
    destructions (FileDecoder.ctor L fs codec status streaming mem).2.Log = 0 := by
  unfold FileDecoder.ctor at hfail ⊢
  by_cases h1 : fs.IsOpen = true
  · by_cases h2 : sizeBelowHeader L fs.CurrentFileSize = true
    · simp [h1, h2, allocations, releases, destructions]
    · by_cases h3 : fs.ReadFails = true
      · simp [h1, h2, h3, Status.Failed, allocations, releases, destructions]
      · cases status with
        | some m => simp [h1, h2, h3, Status.Failed, allocations, releases, destructions]
        | none =>
          by_cases h4 : (FileDecoder.ctorHeader L fs streaming).Name0 ≠ 90 ∨
              (FileDecoder.ctorHeader L fs streaming).Name1 ≠ 69
          · simp [h1, h2, h3, h4, Status.Failed, allocations, releases, destructions]
          · simp only [h1, h2, h3, h4, Status.Failed, Bool.not_true, Bool.false_eq_true,
              if_false, Option.isSome_none] at hfail ⊢
            refine createDecoders_failure codec _ _ hfail ?_ ?_ <;>
              simp [allocations, releases, destructions]
  · simp [h1, allocations, releases, destructions]

/-- C12 (the code at the failing input): a header for two channels, the creation for channel 1
fails with -7. The constructor reports the failure and rolls the buffer back, but the
decoder created for channel 0 is still in `Decoders[0]` on return and the call has
destroyed no decoder. -/
theorem ctor_creation_failure_keeps_earlier_decoder :
    (FileDecoder.ctor specLayout (fileOf (zeHeader 2)) secondCreationFails none false zeroMem).1 =
      some (Message.ErrorCreatingDecoder (-7)) ∧
    (FileDecoder.ctor specLayout (fileOf (zeHeader 2)) secondCreationFails none false
      zeroMem).2.InputFileData = none ∧
    (FileDecoder.ctor specLayout (fileOf (zeHeader 2)) secondCreationFails none false
      zeroMem).2.Decoders 0 = some 0 ∧
    (FileDecoder.ctor specLayout (fileOf (zeHeader 2)) secondCreationFails none false
      zeroMem).2.Log =
      [Event.alloc 12, Event.readFile 12, Event.readBuffer 0 12, Event.create 0, Event.create 1,
        Event.free] := by
  decide

theorem dispatches_append (a b : List Event) :
    dispatches (a ++ b) = dispatches a + dispatches b := by
  simp [dispatches, List.countP_append]

/-- C20 (the code at the failing input): streamed mono file whose first packet has a mismatched
magic tag and declares 8 payload bytes. After the decode step the cursor is at 28, past
the payload, but the file position is at 20, the first payload byte; the next packet
header is read there, from the payload, and not from the header that starts at byte 28. -/
theorem decodePacket_streamed_bad_packet_desyncs :
    (FileDecoder.DecodePacket specLayout countingCodec
      (FileDecoder.OpenStream specLayout countingCodec true
        (streamedDecoder countingCodec desyncFile))).DataIndex = 28 ∧
    (FileDecoder.DecodePacket specLayout countingCodec
      (FileDecoder.OpenStream specLayout countingCodec true
        (streamedDecoder countingCodec desyncFile))).InputFile.Position = 20 ∧
    FileDecoder.packHead specLayout (FileDecoder.DecodePacket specLayout countingCodec
      (FileDecoder.OpenStream specLayout countingCodec true
        (streamedDecoder countingCodec desyncFile))) =
      { Name0 := 112, Name1 := 97, Size := 2 } ∧
    specLayout.readPacketHeader (bytesAt desyncFile 20 8) =
      { Name0 := 112, Name1 := 97, Size := 2 } ∧
    specLayout.readPacketHeader (bytesAt desyncFile 28 8) =
      { Name0 := 112, Name1 := 97, Size := 1 } := by
  decide

/-! ### Streamed decoding -/

theorem finishDecodingPacket_counter (d : FileDecoder) :
    d.FinishDecodingPacket.DecodingTaskCount = toSigned32 (d.DecodingTaskCount - 1) ∧
    dispatches d.FinishDecodingPacket.Log = dispatches d.Log := by
  by_cases h : d.ParentAlive = false
  · by_cases hb : d.InputFileData.isSome = true <;>
    simp [FileDecoder.FinishDecodingPacket, FileDecoder.dtor, h, hb, dispatches,
      List.countP_append, List.countP_cons, List.countP_eq_zero]
  · simp [FileDecoder.FinishDecodingPacket, h]

/-- A call of `DecodePacket` keeps the guard and dispatches nothing. It decrements the task
counter once on the no-data path and on the path on which `QueueDecodedPackets` returns;
when the call ends in `QueueDecodedPackets` by the exception, the counter keeps its
value. -/
theorem decodePacket_counters (L : Layout) (codec : Codec) (d : FileDecoder) :
    (FileDecoder.DecodePacket L codec d).ParentAlive = d.ParentAlive ∧
    (FileDecoder.DecodePacket L codec d).DecodingTaskCount =
      (if d.noData = false ∧ (FileDecoder.decodeChannels L codec d).2 < 0 ∧ 0 < d.Channels
        then d.DecodingTaskCount else toSigned32 (d.DecodingTaskCount - 1)) ∧
    dispatches (FileDecoder.DecodePacket L codec d).Log = dispatches d.Log := by
  obtain ⟨k1, k2, k3⟩ := decodeChannel_fold_counters L codec (channelRange d.Channels)
    (d, codec.junkFrames)
  by_cases hdata : d.noData = true
  · have he : FileDecoder.DecodePacket L codec d = d.FinishDecodingPacket := by
      simp [FileDecoder.DecodePacket, hdata]
    rw [he]
    simp only [hdata, Bool.true_eq_false, false_and, if_false]
    exact ⟨finishDecodingPacket_parentAlive d, finishDecodingPacket_counter d⟩
  · have hdata2 : d.noData = false := by simpa using hdata
    by_cases hfr : (FileDecoder.decodeChannels L codec d).2 < 0 ∧ 0 < d.Channels
    · rw [decodePacket_exception L codec d hdata2 hfr]
      rw [if_pos ⟨hdata2, hfr⟩]
      refine ⟨k1, k2, ?_⟩
      show dispatches ((FileDecoder.decodeChannels L codec d).1.Log ++ [Event.exception]) = _
      rw [dispatches_append]
      simpa [dispatches, FileDecoder.decodeChannels] using k3
    · have hfr3 : ¬ (d.noData = false ∧
          (FileDecoder.decodeChannels L codec d).2 < 0 ∧ 0 < d.Channels) := fun h => hfr h.2
      rw [decodePacket_eq L codec d hdata2, if_neg hfr, if_neg hfr3]
      refine ⟨?_, ?_, ?_⟩
      · rw [finishDecodingPacket_parentAlive]
        split <;> exact k1
      · rw [(finishDecodingPacket_counter _).1]
        split <;> exact congrArg (fun c => toSigned32 (c - 1)) k2
      · rw [(finishDecodingPacket_counter _).2]
        split
        · simp only [dispatches, List.countP_append] at k3 ⊢
          simpa [FileDecoder.decodeChannels] using k3
        · exact k3

theorem recreateDecoders_parentAlive (codec : Codec) (is : List Nat) (d : FileDecoder) :
    (recreateDecoders codec is d).ParentAlive = d.ParentAlive := by
  induction is generalizing d with
  | nil => rfl
  | cons i rest ih => exact ih _

theorem resetStream_parentAlive (L : Layout) (codec : Codec) (d : FileDecoder) :
    (FileDecoder.ResetStream L codec d).ParentAlive = d.ParentAlive := by
  unfold FileDecoder.ResetStream
  by_cases h : d.InputFile.IsOpen = true
  · simp only [h, Bool.not_true, Bool.false_eq_true, if_false, FileDecoder.AddDecodingTask]
    exact recreateDecoders_parentAlive codec _ _
  · simp [h]

/-- C23: worker-side code only read-checks the Lifetime Guard. The compare-exchange of null
with null returns the guard and leaves the object as it is, `FinishDecodingPacket` is the
decrement followed by that check, and for every state, ALIVE or RETIRED, `ParentAlive`
after `DecodePacket` (however the call ends), `QueueDecodedPackets` (when it returns),
`FinishDecodingPacket`, `AddDecodingTask`, `ResetStream`, `OpenStream`, `CloseStream` and
any number of decode steps is what it was before. -/
theorem parentAlive_only_read_checked (L : Layout) (codec : Codec) (d : FileDecoder) :
    d.guardCheck = (d, d.ParentAlive) ∧
    d.FinishDecodingPacket =
      (if (FileDecoder.guardCheck
            { d with DecodingTaskCount := toSigned32 (d.DecodingTaskCount - 1) }).2 = false
        then FileDecoder.dtor
          { (FileDecoder.guardCheck
              { d with DecodingTaskCount := toSigned32 (d.DecodingTaskCount - 1) }).1 with
            Log := d.Log ++ [Event.deleteThis] }
        else (FileDecoder.guardCheck
          { d with DecodingTaskCount := toSigned32 (d.DecodingTaskCount - 1) }).1) ∧
    (FileDecoder.DecodePacket L codec d).ParentAlive = d.ParentAlive ∧
    (∀ n : Int, (d.QueueDecodedPackets n).map FileDecoder.ParentAlive =
      (d.QueueDecodedPackets n).map (fun _ => d.ParentAlive)) ∧
    d.FinishDecodingPacket.ParentAlive = d.ParentAlive ∧
    d.AddDecodingTask.ParentAlive = d.ParentAlive ∧
    (FileDecoder.ResetStream L codec d).ParentAlive = d.ParentAlive ∧
    (∀ opens : Bool, (FileDecoder.OpenStream L codec opens d).ParentAlive = d.ParentAlive) ∧
    d.CloseStream.ParentAlive = d.ParentAlive ∧
    (∀ k : Nat, (FileDecoder.decodeSteps L codec k d).ParentAlive = d.ParentAlive) := by
  have hcheck : ∀ x : FileDecoder, x.guardCheck = (x, x.ParentAlive) := by
    intro x
    cases x with
    | mk f1 f2 f3 f4 f5 f6 f7 f8 f9 f10 f11 f12 f13 f14 => cases f3 <;> rfl
  refine ⟨hcheck d, ?_, (decodePacket_counters L codec d).1, fun n => ?_,
    finishDecodingPacket_parentAlive d, rfl, resetStream_parentAlive L codec d,
    fun opens => resetStream_parentAlive L codec _, ?_, ?_⟩
  · rw [hcheck]
    rfl
  · rw [queueDecodedPackets_eq]
    by_cases hn : n < 0 ∧ 0 < d.Channels <;> simp [hn]
  · rw [closeStream_eq]
  · intro k
    induction k generalizing d with
    | zero => rfl
    | succ k ih =>
      exact (ih (FileDecoder.DecodePacket L codec d)).trans (decodePacket_counters L codec d).1

/-! ### `ResetStream` with tasks outstanding -/

theorem recreateDecoders_counter (codec : Codec) (is : List Nat) (d : FileDecoder) (c : Int) :
    recreateDecoders codec is { d with DecodingTaskCount := c } =
      { recreateDecoders codec is d with DecodingTaskCount := c } := by
  induction is generalizing d with
  | nil => rfl
  | cons i rest ih =>
    exact ih { d with Decoders := setAt d.Decoders i (codec.create d.Creations).1,
                      Creations := d.Creations + 1,
                      Log := d.Log ++ [Event.create i] }

theorem recreateDecoders_log (codec : Codec) (is : List Nat) (d : FileDecoder) :
    (recreateDecoders codec is d).Log = d.Log ++ is.map Event.create ∧
    (recreateDecoders codec is d).DecodingTaskCount = d.DecodingTaskCount := by
  induction is generalizing d with
  | nil => simp [recreateDecoders]
  | cons i rest ih =>
    obtain ⟨h1, h2⟩ := ih { d with Decoders := setAt d.Decoders i (codec.create d.Creations).1,
                                   Creations := d.Creations + 1,
                                   Log := d.Log ++ [Event.create i] }
    exact ⟨by rw [recreateDecoders, h1]; simp, by rw [recreateDecoders, h2]⟩

/-- C24: `ResetStream` does not serialize against outstanding tasks. The counter check, a
compare-exchange of 0 with 0, returns the counter and leaves the object as it is, whatever
the counter. On an open stream file, `ResetStream` with the counter at `c` ends in the
state that `ResetStream` with the counter at 0 ends in, but for the counter itself, which
is `c + 1` in place of `1` (as 32-bit values), and the counter value seen by the one task
that is dispatched: same seek, same cursor, same decoders destroyed and created. -/
theorem resetStream_ignores_outstanding_tasks (L : Layout) (codec : Codec) (d : FileDecoder)
    (c : Int) (hopen : d.InputFile.IsOpen = true) :
    (FileDecoder.counterCheck { d with DecodingTaskCount := c }) =
      ({ d with DecodingTaskCount := c }, c) ∧
    FileDecoder.ResetStream L codec { d with DecodingTaskCount := c } =
      { FileDecoder.ResetStream L codec { d with DecodingTaskCount := 0 } with
        DecodingTaskCount := toSigned32 (c + 1),
        Log := d.Log ++ (channelRange d.Channels).map Event.destroy ++
          (channelRange d.Channels).map Event.create ++ [Event.task (toSigned32 (c + 1))] } ∧
    (FileDecoder.ResetStream L codec { d with DecodingTaskCount := 0 }).Log =
      d.Log ++ (channelRange d.Channels).map Event.destroy ++
        (channelRange d.Channels).map Event.create ++ [Event.task 1] ∧
    (FileDecoder.ResetStream L codec { d with DecodingTaskCount := 0 }).DecodingTaskCount = 1 := by
  have hne : (!d.InputFile.IsOpen) = false := by simp [hopen]
  refine ⟨?_, ?_, ?_, ?_⟩
  · unfold FileDecoder.counterCheck AtomicCompareExchange32
    by_cases h : c = 0
    · subst h
      rfl
    · simp [h]
  · unfold FileDecoder.ResetStream
    simp only [hne, Bool.false_eq_true, if_false, FileDecoder.AddDecodingTask]
    have e1 := recreateDecoders_counter codec (channelRange d.Channels)
      { d with InputFile := { d.InputFile with Position := L.sizeofFileHeader },
               DataIndex := L.sizeofFileHeader % U32,
               Log := d.Log ++ (channelRange d.Channels).map Event.destroy }
    have e2 := recreateDecoders_log codec (channelRange d.Channels)
      { d with InputFile := { d.InputFile with Position := L.sizeofFileHeader },
               DataIndex := L.sizeofFileHeader % U32,
               Log := d.Log ++ (channelRange d.Channels).map Event.destroy }
    rw [e1 c, e1 0]
    simp [e2.1]
  · unfold FileDecoder.ResetStream
    simp only [hne, Bool.false_eq_true, if_false, FileDecoder.AddDecodingTask]
    have e1 := recreateDecoders_counter codec (channelRange d.Channels)
      { d with InputFile := { d.InputFile with Position := L.sizeofFileHeader },
               DataIndex := L.sizeofFileHeader % U32,
               Log := d.Log ++ (channelRange d.Channels).map Event.destroy }
    have e2 := recreateDecoders_log codec (channelRange d.Channels)
      { d with InputFile := { d.InputFile with Position := L.sizeofFileHeader },
               DataIndex := L.sizeofFileHeader % U32,
               Log := d.Log ++ (channelRange d.Channels).map Event.destroy }
    rw [e1 0]
    simp [e2.1, toSigned32]
  · unfold FileDecoder.ResetStream
    simp only [hne, Bool.false_eq_true, if_false, FileDecoder.AddDecodingTask]
    have e1 := recreateDecoders_counter codec (channelRange d.Channels)
      { d with InputFile := { d.InputFile with Position := L.sizeofFileHeader },
               DataIndex := L.sizeofFileHeader % U32,
               Log := d.Log ++ (channelRange d.Channels).map Event.destroy }
    rw [e1 0]
    simp [toSigned32]

/-- Witness of C24: a reset of the opened mono stream while the task of `OpenStream` is
outstanding. -/
theorem resetStream_ignores_outstanding_tasks_witness :
    openedMono.InputFile.IsOpen = true ∧ openedMono.DecodingTaskCount = 1 ∧
    (FileDecoder.counterCheck { openedMono with DecodingTaskCount := 1 }) =
      ({ openedMono with DecodingTaskCount := 1 }, 1) ∧
    (FileDecoder.ResetStream specLayout countingCodec
      { openedMono with DecodingTaskCount := 0 }).DecodingTaskCount = 1 :=
  have h := resetStream_ignores_outstanding_tasks specLayout countingCodec openedMono 1
    (by decide)
  ⟨by decide, by decide, h.1, h.2.2.2⟩

/-- C28 (amended): when there is no data, `DecodePacket` is `FinishDecodingPacket` and nothing
else. It pushes no block, leaves the cursor, the file, the buffer, the decoders and their
rows as they are and decrements the task counter once. With the guard ALIVE only the
counter changes and nothing is logged; with the guard RETIRED the call goes on to delete
the instance, and the log grows by `delete this` and what the destructor does. -/
theorem decodePacket_noData_only_finishes (L : Layout) (codec : Codec) (d : FileDecoder)
    (hdata : d.noData = true) :
    FileDecoder.DecodePacket L codec d = d.FinishDecodingPacket ∧
    (FileDecoder.DecodePacket L codec d).DecodedPacketQueue = d.DecodedPacketQueue ∧
    (FileDecoder.DecodePacket L codec d).DataIndex = d.DataIndex ∧
    (FileDecoder.DecodePacket L codec d).InputFile = d.InputFile ∧
    (FileDecoder.DecodePacket L codec d).InputFileData = d.InputFileData ∧
    (FileDecoder.DecodePacket L codec d).Decoders = d.Decoders ∧
    (FileDecoder.DecodePacket L codec d).DecodedPackets = d.DecodedPackets ∧
    (FileDecoder.DecodePacket L codec d).DecodingTaskCount =
      toSigned32 (d.DecodingTaskCount - 1) ∧
    (d.ParentAlive = true →
      FileDecoder.DecodePacket L codec d =
        { d with DecodingTaskCount := toSigned32 (d.DecodingTaskCount - 1) }) ∧
    (d.ParentAlive = false →
      (FileDecoder.DecodePacket L codec d).Log =
        d.Log ++ [Event.deleteThis] ++
          ((channelRange d.Channels).filter (fun i => (d.Decoders i).isSome)).map Event.destroy ++
          (if d.InputFileData.isSome then [Event.free] else [])) := by
  have he : FileDecoder.DecodePacket L codec d = d.FinishDecodingPacket := by
    simp [FileDecoder.DecodePacket, hdata]
  rw [he]
  refine ⟨rfl, ?_, ?_, ?_, ?_, ?_, ?_, ?_, ?_, ?_⟩ <;>
  by_cases h : d.ParentAlive = false <;>
  simp [FileDecoder.FinishDecodingPacket, FileDecoder.dtor, h]

/-- Witness of C28 (amended): the streamed decoder of the mono file before `OpenStream`, its
stream file not open, the guard ALIVE. -/
theorem decodePacket_noData_only_finishes_witness :
    (streamedDecoder countingCodec monoFile).noData = true ∧
    (FileDecoder.DecodePacket specLayout countingCodec
      (streamedDecoder countingCodec monoFile)).DecodedPacketQueue =
      (streamedDecoder countingCodec monoFile).DecodedPacketQueue ∧
    (FileDecoder.DecodePacket specLayout countingCodec
      (streamedDecoder countingCodec monoFile)).DataIndex =
      (streamedDecoder countingCodec monoFile).DataIndex :=
  have h := decodePacket_noData_only_finishes specLayout countingCodec
    (streamedDecoder countingCodec monoFile) (by decide)
  ⟨by decide, h.2.1, h.2.2.1⟩

/-- C28 (counterexample): a decode task that finds no data does more than decrement the
counter when the guard is RETIRED. The stream of the mono file was opened and closed and
the owner is gone; the task issued by `OpenStream` finds the file closed, decrements the
counter, executes `delete this`, and the destructor destroys the decoder of channel 0 and
deletes the buffer. -/
theorem decodePacket_noData_retired_deletes :
    retiredClosedMono.noData = true ∧
    retiredClosedMono.DecodingTaskCount = 1 ∧
    (FileDecoder.DecodePacket specLayout countingCodec retiredClosedMono).DecodingTaskCount = 0 ∧
    (FileDecoder.DecodePacket specLayout countingCodec retiredClosedMono).Log =
      retiredClosedMono.Log ++ [Event.deleteThis, Event.destroy 0, Event.free] ∧
    (FileDecoder.DecodePacket specLayout countingCodec retiredClosedMono) ≠
      { retiredClosedMono with DecodingTaskCount := 0 } := by
  refine ⟨by decide, by decide, by decide, by decide, fun h => ?_⟩
  have hlog := congrArg FileDecoder.Log h
  revert hlog
  decide

/-- C29 (amended): for every packet header processed by `DecodePacket`, the read cursor after
the packet is the cursor before plus the packet header size plus the declared payload
size, reduced modulo `2 ^ 32`; it is strictly greater than the cursor before whenever
that sum stays below `2 ^ 32` (the packet header having a size above zero). -/
theorem decodeChannel_cursor_forward (L : Layout) (codec : Codec) (st : FileDecoder × Int)
    (i : Nat) (hhead : 0 < L.sizeofPacketHeader)
    (hfit : st.1.DataIndex + L.sizeofPacketHeader + (FileDecoder.packHead L st.1).Size % U32
      < U32) :
    (FileDecoder.decodeChannel L codec st i).1.DataIndex =
      (st.1.DataIndex + L.sizeofPacketHeader + (FileDecoder.packHead L st.1).Size % U32) % U32 ∧
    st.1.DataIndex < (FileDecoder.decodeChannel L codec st i).1.DataIndex := by
  have key : (FileDecoder.decodeChannel L codec st i).1.DataIndex =
      addU32 (addU32 st.1.DataIndex L.sizeofPacketHeader)
        ((FileDecoder.packHead L st.1).Size % U32) := by
    unfold FileDecoder.decodeChannel
    by_cases hs : st.1.Streaming = true <;>
    by_cases hv : (FileDecoder.packHead L st.1).invalid = true <;>
    by_cases ha : addU32 (addU32 st.1.DataIndex L.sizeofPacketHeader)
        ((FileDecoder.packHead L st.1).Size % U32) > st.1.DataSize <;>
    simp [hs, hv, ha]
  have hmod : addU32 (addU32 st.1.DataIndex L.sizeofPacketHeader)
        ((FileDecoder.packHead L st.1).Size % U32) =
      (st.1.DataIndex + L.sizeofPacketHeader + (FileDecoder.packHead L st.1).Size % U32) % U32 := by
    simp only [addU32, U32]
    omega
  refine ⟨key.trans hmod, ?_⟩
  rw [key, hmod, Nat.mod_eq_of_lt hfit]
  omega

/-- Witness of C29 (amended): the packet of the mono file moves the cursor forward. -/
theorem decodeChannel_cursor_forward_witness :
    (bufferedDecoder countingCodec monoFile).DataIndex <
      (FileDecoder.decodeChannel specLayout countingCodec
        (bufferedDecoder countingCodec monoFile, 0) 0).1.DataIndex :=
  (decodeChannel_cursor_forward specLayout countingCodec
    (bufferedDecoder countingCodec monoFile, 0) 0 (by decide) (by decide)).2

/-- C29 (counterexample): a packet header that declares `2 ^ 32 - 9` payload bytes moves the
cursor backwards, from 12 to 11: 12 + 8 + 4294967287 wraps to 11. -/
theorem decodePacket_cursor_moves_backwards :
    (bufferedDecoder countingCodec backwardFile).noData = false ∧
    (bufferedDecoder countingCodec backwardFile).Channels = 1 ∧
    (bufferedDecoder countingCodec backwardFile).DataIndex = 12 ∧
    FileDecoder.packHead specLayout (bufferedDecoder countingCodec backwardFile) =
      { Name0 := 120, Name1 := 120, Size := 4294967287 } ∧
    (FileDecoder.DecodePacket specLayout countingCodec
      (bufferedDecoder countingCodec backwardFile)).DataIndex = 11 ∧
    (FileDecoder.decodeChannel specLayout countingCodec
      (bufferedDecoder countingCodec backwardFile, 0) 0).1.DataIndex <
      (bufferedDecoder countingCodec backwardFile).DataIndex := by
  decide

/-! ### `CloseStream` and the sample buffers -/

theorem popped_append (a b : List Event) : popped (a ++ b) = popped a ++ popped b := by
  induction a with
  | nil => rfl
  | cons e rest ih => cases e <;> simp [popped, ih]

theorem released_append (a b : List Event) : released (a ++ b) = released a ++ released b := by
  induction a with
  | nil => rfl
  | cons e rest ih => cases e <;> simp [released, ih]

theorem popped_map_pop (q : List DecodedPacket) : popped (q.map Event.pop) = q := by
  induction q with
  | nil => rfl
  | cons p rest ih => simp [popped, ih]

theorem released_map_pop (q : List DecodedPacket) : released (q.map Event.pop) = [] := by
  induction q with
  | nil => rfl
  | cons p rest ih => simp [released, ih]

/-- C25 (the code at every input): `CloseStream` takes every queued block out of the queue and
releases the sample buffer of none of them. The blocks popped during the call are exactly
the blocks that were queued, the blocks released during the call are none, and a
`ReleaseSamples` on a block after the call is the first release the log shows since the
call began. -/
theorem closeStream_releases_no_samples (d : FileDecoder) :
    popped d.CloseStream.Log = popped d.Log ++ d.DecodedPacketQueue ∧
    released d.CloseStream.Log = released d.Log ∧
    d.CloseStream.DecodedPacketQueue = [] ∧
    (∀ p : DecodedPacket,
      released (p.ReleaseSamples d.CloseStream.Log).2 = released d.Log ++ [p]) := by
  have key := closeStream_eq d
  have hlog : d.CloseStream.Log = d.Log ++ d.DecodedPacketQueue.map Event.pop := by
    rw [key]
  have hrel : released d.CloseStream.Log = released d.Log := by
    rw [hlog, released_append, released_map_pop, List.append_nil]
  refine ⟨?_, hrel, ?_, fun p => ?_⟩
  · rw [hlog, popped_append, popped_map_pop]
  · rw [key]
  · simp [DecodedPacket.ReleaseSamples, released_append, hrel, released]

/-! ### The scratch buffer of streamed mode -/

/-- In streamed mode the loop body of `DecodePacket` reads as many payload bytes into the
scratch buffer as a valid packet header declares, whatever `MaxPacketSize` is. -/
theorem decodeChannel_streamed_reads_declared_size (L : Layout) (codec : Codec)
    (st : FileDecoder × Int) (i : Nat) (hs : st.1.Streaming = true)
    (hv : (FileDecoder.packHead L st.1).invalid = false) :
    Event.readFile ((FileDecoder.packHead L st.1).Size % U32) ∈
      (FileDecoder.decodeChannel L codec st i).1.Log ∧
    Event.readBuffer 0 ((FileDecoder.packHead L st.1).Size % U32) ∈
      (FileDecoder.decodeChannel L codec st i).1.Log := by
  unfold FileDecoder.decodeChannel
  by_cases ha : addU32 (addU32 st.1.DataIndex L.sizeofPacketHeader)
      ((FileDecoder.packHead L st.1).Size % U32) > st.1.DataSize <;>
  simp [hs, hv, ha]

/-- C21 (the code at the failing input): streamed mono file whose packet header declares 5000
payload bytes, all of them in the file. The constructor allocates the scratch buffer with
`MaxPacketSize` = 4000 bytes; the decode step reads the 8 bytes of the packet header and
then 5000 bytes into that buffer, and hands the codec 5000 bytes from it. -/
theorem decodePacket_streamed_read_exceeds_scratch :
    (FileDecoder.ctor specLayout oversizeFile countingCodec none true zeroMem).1 = none ∧
    specLayout.MaxPacketSize = 4000 ∧
    FileDecoder.packHead specLayout (FileDecoder.OpenStream specLayout countingCodec true
      (FileDecoder.ctor specLayout oversizeFile countingCodec none true zeroMem).2) =
      { Name0 := 112, Name1 := 97, Size := 5000 } ∧
    (FileDecoder.DecodePacket specLayout countingCodec
      (FileDecoder.OpenStream specLayout countingCodec true
        (FileDecoder.ctor specLayout oversizeFile countingCodec none true zeroMem).2)).Log =
      [Event.alloc 4000, Event.readFile 12, Event.readBuffer 0 12, Event.create 0,
       Event.destroy 0, Event.create 0, Event.task 1,
       Event.readFile 8, Event.readFile 5000, Event.readBuffer 0 5000] := by
  have hdata : (FileDecoder.OpenStream specLayout countingCodec true
      (FileDecoder.ctor specLayout oversizeFile countingCodec none true zeroMem).2).noData
      = false := by decide
  have hfr : 0 ≤ (FileDecoder.decodeChannels specLayout countingCodec
      (FileDecoder.OpenStream specLayout countingCodec true
        (FileDecoder.ctor specLayout oversizeFile countingCodec none true zeroMem).2)).2 := by
    have hr : channelRange (FileDecoder.OpenStream specLayout countingCodec true
        (FileDecoder.ctor specLayout oversizeFile countingCodec none true zeroMem).2).Channels
        = [0] := by decide
    unfold FileDecoder.decodeChannels
    rw [hr]
    exact decodeChannel_frames_counting specLayout _ 0
  refine ⟨by decide, by decide, by decide, ?_⟩
  rw [decodePacket_log_alive specLayout countingCodec _ hdata (by omega) (by decide)]
  decide

/-! ### The frame count of a block -/

/-- The object that the loop body of `DecodePacket` leaves does not depend on the value held
by the local `frames`. -/
theorem decodeChannel_state_frames (L : Layout) (codec : Codec) (d : FileDecoder) (x y : Int)
    (i : Nat) :
    (FileDecoder.decodeChannel L codec (d, x) i).1 =
      (FileDecoder.decodeChannel L codec (d, y) i).1 ∧
    (FileDecoder.decodeChannel L codec (d, x) i).2 =
      (FileDecoder.decodeChannel L codec (d, y) i).2 := by
  unfold FileDecoder.decodeChannel
  exact ⟨rfl, rfl⟩

theorem decodeChannel_fold_state_frames (L : Layout) (codec : Codec) (is : List Nat) :
    ∀ (d : FileDecoder) (x y : Int),
      (is.foldl (FileDecoder.decodeChannel L codec) (d, x)).1 =
        (is.foldl (FileDecoder.decodeChannel L codec) (d, y)).1 := by
  induction is with
  | nil => intro d x y; rfl
  | cons i rest ih =>
    intro d x y
    simp only [List.foldl_cons]
    have h := decodeChannel_state_frames L codec d x y i
    have e : FileDecoder.decodeChannel L codec (d, x) i =
        FileDecoder.decodeChannel L codec (d, y) i := Prod.ext h.1 h.2
    rw [e]

/-- C26: for every decode step with `Channels = n + 1` that pushes a block, the frame count
of the block is the frame result of the packet of the last channel `n` alone. That result
`r` is what the loop body for channel `n` assigns to `frames` on the object left by the
channels before, whatever value `x` the channels before left in `frames` and whatever
value `y` the local had at the start: 0 for a header that is not valid, the return value
of the codec otherwise. A step that pushes a block has `0 ≤ r`, and the frame count is
`r` as an `unsigned` value, so `r` itself, `r` being an `int`. -/
theorem decodePacket_frameCount_last_channel (L : Layout) (codec : Codec) (d : FileDecoder)
    (n : Nat) (block : DecodedPacket) (hC : d.Channels = (n : Int) + 1)
    (hpush : (FileDecoder.DecodePacket L codec d).DecodedPacketQueue =
      d.DecodedPacketQueue ++ [block]) :
    ∀ x y : Int,
      0 ≤ (FileDecoder.decodeChannel L codec
        (((List.range n).foldl (FileDecoder.decodeChannel L codec) (d, y)).1, x) n).2 ∧
      (block.FrameCount : Int) = (FileDecoder.decodeChannel L codec
        (((List.range n).foldl (FileDecoder.decodeChannel L codec) (d, y)).1, x) n).2
          % 4294967296 ∧
      ((FileDecoder.decodeChannel L codec
          (((List.range n).foldl (FileDecoder.decodeChannel L codec) (d, y)).1, x) n).2
            < 4294967296 →
        (block.FrameCount : Int) = (FileDecoder.decodeChannel L codec
          (((List.range n).foldl (FileDecoder.decodeChannel L codec) (d, y)).1, x) n).2) ∧
      (FileDecoder.decodeChannel L codec
          (((List.range n).foldl (FileDecoder.decodeChannel L codec) (d, y)).1, x) n).2 =
        (if (FileDecoder.packHead L
            ((List.range n).foldl (FileDecoder.decodeChannel L codec) (d, y)).1).invalid
          then 0
          else (FileDecoder.decodeChannel L codec
            (((List.range n).foldl (FileDecoder.decodeChannel L codec) (d, y)).1, 0) n).2) := by
  intro x y
  have hdata : d.noData = false := by
    by_cases h : d.noData = true
    · have he : FileDecoder.DecodePacket L codec d = d.FinishDecodingPacket := by
        simp [FileDecoder.DecodePacket, h]
      rw [he, finishDecodingPacket_queue] at hpush
      have := congrArg List.length hpush
      simp at this
    · simpa using h
  have h0 : 0 ≤ (FileDecoder.decodeChannels L codec d).2 := by
    by_cases h : (FileDecoder.decodeChannels L codec d).2 < 0
    · rw [decodePacket_exception L codec d hdata ⟨h, by omega⟩] at hpush
      have hq := (decodeChannel_fold_frame L codec (channelRange d.Channels)
        (d, codec.junkFrames)).1
      have : (FileDecoder.decodeChannels L codec d).1.DecodedPacketQueue =
          d.DecodedPacketQueue ++ [block] := hpush
      unfold FileDecoder.decodeChannels at this
      rw [hq] at this
      have := congrArg List.length this
      simp at this
    · omega
  have hr : channelRange d.Channels = List.range n ++ [n] := by
    have : d.Channels.toNat = n + 1 := by omega
    simp [channelRange, this, List.range_succ]
  have hfr : (FileDecoder.decodeChannels L codec d).2 =
      (FileDecoder.decodeChannel L codec
        (((List.range n).foldl (FileDecoder.decodeChannel L codec) (d, y)).1, x) n).2 := by
    unfold FileDecoder.decodeChannels
    rw [hr, List.foldl_append]
    simp only [List.foldl_cons, List.foldl_nil]
    rw [← decodeChannel_fold_state_frames L codec (List.range n) d codec.junkFrames y]
    exact (decodeChannel_state_frames L codec _ _ x n).2
  have hblock : block = filledPacket (FileDecoder.decodeChannels L codec d).1.DecodedPackets
      d.Channels (toUnsigned (FileDecoder.decodeChannels L codec d).2) := by
    rw [decodePacket_queue L codec d hdata (by omega)] at hpush
    have := List.append_cancel_left hpush
    simpa using this.symm
  have hcount : (block.FrameCount : Int) =
      (FileDecoder.decodeChannels L codec d).2 % 4294967296 := by
    rw [hblock]
    show ((toUnsigned (FileDecoder.decodeChannels L codec d).2 : Nat) : Int) = _
    unfold toUnsigned
    omega
  rw [hfr] at h0 hcount
  refine ⟨h0, hcount, fun h1 => ?_, ?_⟩
  · rw [hcount]
    exact Int.emod_eq_of_lt h0 h1
  · rw [decodeChannel_frames]
    split
    · rfl
    · rw [decodeChannel_frames]
      simp_all

/-- Witness of C26: the two-channel file whose channel 0 has a bad header; the step pushes a
block, and the block has the one frame of channel 1. -/
theorem decodePacket_frameCount_last_channel_witness :
    (FileDecoder.DecodePacket specLayout countingCodec
      (bufferedDecoder countingCodec badFirstChannelFile)).DecodedPacketQueue =
      (bufferedDecoder countingCodec badFirstChannelFile).DecodedPacketQueue ++
        [{ FrameCount := 1, Samples := [0, 9] }] ∧
    ((1 : Nat) : Int) = (FileDecoder.decodeChannel specLayout countingCodec
      (((List.range 1).foldl (FileDecoder.decodeChannel specLayout countingCodec)
        (bufferedDecoder countingCodec badFirstChannelFile, 5)).1, 3) 1).2 :=
  ⟨by decide, ((decodePacket_frameCount_last_channel specLayout countingCodec
    (bufferedDecoder countingCodec badFirstChannelFile) 1 { FrameCount := 1, Samples := [0, 9] }
    (by decide) (by decide)) 3 5).2.2.1 (by decide)⟩

/-! ### The task counter along a schedule -/


/-- C22 (the code at the failing input): the buffered decoder of the mono file, with a codec
that returns -4 for its packet. One task is dispatched and runs: the counter goes to 1,
the decode step ends in `QueueDecodedPackets(-4)` by the exception before
`FinishDecodingPacket` is reached, and the counter stays at 1 though one task was
dispatched and one is over; nothing was deleted and nothing pushed. -/
theorem decodePacket_exception_skips_decrement :
    (bufferedDecoder failingCodec monoFile).DecodingTaskCount = 0 ∧
    schedulable 0 [TaskOp.dispatch, TaskOp.complete] = true ∧
    (FileDecoder.performAll specLayout failingCodec [TaskOp.dispatch]
      (bufferedDecoder failingCodec monoFile)).DecodingTaskCount = 1 ∧
    (FileDecoder.performAll specLayout failingCodec [TaskOp.dispatch]
      (bufferedDecoder failingCodec monoFile)).noData = false ∧
    (FileDecoder.performAll specLayout failingCodec [TaskOp.dispatch, TaskOp.complete]
      (bufferedDecoder failingCodec monoFile)).DecodingTaskCount = 1 ∧
    ((dispatched [TaskOp.dispatch, TaskOp.complete] : Int) -
      (completed [TaskOp.dispatch, TaskOp.complete] : Int)) = 0 ∧
    (FileDecoder.performAll specLayout failingCodec [TaskOp.dispatch, TaskOp.complete]
      (bufferedDecoder failingCodec monoFile)).Log =
      [Event.alloc 21, Event.readFile 21, Event.readBuffer 0 12, Event.create 0, Event.task 1,
       Event.readBuffer 12 8, Event.readBuffer 20 1, Event.exception] := by
  decide

/-! ### `CustomAudioNode::SendPartialBuffer` -/

/-- C30 (the code at the failing input): a buffer of 10 samples, `startAtIndex` = 5 and
`howManySamples` = -3. The sum 2 does not exceed the size, so the call reaches
`SendToAudioEngine` with the count converted to `unsigned`: 4294967293 floats are copied
from index 5 on, far past the 10 samples. With `startAtIndex` = 2147483647 and
`howManySamples` = 1 the 32-bit sum wraps to a negative value and the call copies the
sample at index 2147483647. -/
theorem sendPartialBuffer_copies_past_buffer :
    CustomAudioNode.SendPartialBuffer (some (List.replicate 10 0)) true 5 (-3) =
      SendResult.sent 5 4294967293 ∧
    ¬ ((5 : Int) + 4294967293 ≤ ((List.replicate 10 (0 : Sample)).length : Int)) ∧
    CustomAudioNode.SendPartialBuffer (some (List.replicate 10 0)) true 2147483647 1 =
      SendResult.sent 2147483647 1 ∧
    ¬ ((2147483647 : Int) + 1 ≤ ((List.replicate 10 (0 : Sample)).length : Int)) := by
  decide

/-! ### Streamed and buffered decoding of a valid file -/

end Audio
